import Mathlib

/-!
DRV8704 driver: register model, transport and logger.

A shallow embedding of `drv.cpp` and `Logger.cpp`.

Conventions of the embedding

* `unsigned int` is the 16-bit type of the AVR targets the library is written for; values are
  natural numbers and every operation that can leave the 16-bit range is reduced modulo `65536`.
  `~m` on such a value is `not16 m`.
* `int` arguments are integers.
* `char*` values are strings; the comparisons `value == "on"` of the source are comparisons of
  string contents (identical literals of one translation unit are taken to be one object).
* the `float` deglitch time is a fixed-point number, in hundredths of a microsecond
  (`1.05` is `105`), so that the four documented values are exactly representable.
* the device at the far end of the bus is a parameter: a state `β` and a function that answers
  one 16-bit frame.  `idealChip` is the fault-free device, a file of eight 12-bit registers.
-/

namespace DRV8704

/-! ## Machine words -/

/-- Bitwise complement of a 16-bit word, the `~` of the source. -/
def not16 (m : Nat) : Nat := 0xFFFF ^^^ m

/-! ## Logger (Logger.cpp) -/

/-- The `Logger` object: its tag and its level. -/
structure Logger where
  tag : String
  lvl : String
  deriving DecidableEq, Repr

/-- The text written so far to the serial port, one entry for each `print`. -/
abbrev Serial := List String

/-- Model of `Serial.print`. -/
def Serial.print (s : String) (out : Serial) : Serial := out ++ [s]

/-- Model of `Serial.println`. -/
def Serial.println (s : String) (out : Serial) : Serial := out ++ [s ++ "\n"]

/-- Model of `Logger::setLevel`. -/
def Logger.setLevel (l : Logger) (level : String) : Logger :=
  if level = "info" then { l with lvl := "info" }
  else if level = "error" then { l with lvl := "error" }
  else if level = "global" then { l with lvl := "global" }
  else { l with lvl := "off" }

/-- Model of `Logger::logi`. -/
def Logger.logi (l : Logger) (message : String) (out : Serial) : Serial :=
  if l.lvl = "info" then
    Serial.println message (Serial.print " - INFO: " (Serial.print l.tag out))
  else out

/-- Model of `Logger::loge`. -/
def Logger.loge (l : Logger) (message : String) (out : Serial) : Serial :=
  if l.lvl = "info" ∨ l.lvl = "error" then
    Serial.println message (Serial.print " - ERROR: " (Serial.print l.tag out))
  else out

/-- Model of `Logger::logg`. -/
def Logger.logg (l : Logger) (message : String) (out : Serial) : Serial :=
  if l.lvl = "global" ∨ l.lvl = "error" ∨ l.lvl = "info" then
    Serial.println message (Serial.print " - GLOBAL: " (Serial.print l.tag out))
  else out

/-- Model of `Logger::logSet`, the `char*` overload; the three other overloads differ only in
how `setting` is printed and are obtained by passing the printed form. -/
def Logger.logSet (l : Logger) (reg subreg setting : String) (success : Bool) (out : Serial) :
    Bool × Serial :=
  if success = true ∧ l.lvl = "info" then
    (success,
      Serial.println " write success" (Serial.print setting (Serial.print " subregister, "
        (Serial.print subreg (Serial.print " register, " (Serial.print reg
          (Serial.print " - INFO: " (Serial.print l.tag out))))))))
  else if success = false ∧ (l.lvl = "error" ∨ l.lvl = "info") then
    (success,
      Serial.println " write fail" (Serial.print setting (Serial.print " subregister, "
        (Serial.print subreg (Serial.print " register, " (Serial.print reg
          (Serial.print " - ERROR: " (Serial.print l.tag out))))))))
  else (success, out)

/-- Printed form of an `int` setting. -/
def printInt (n : Int) : String := toString n

/-- Printed form of an `unsigned int` setting. -/
def printUInt (n : Nat) : String := toString n

/-- Printed form of a fixed-point setting: two decimals, as `Serial.print(float)` gives. -/
def printCenti (q : Int) : String :=
  (if q < 0 then "-" else "") ++ toString (q.natAbs / 100) ++ "." ++
    toString (q.natAbs / 10 % 10) ++ toString (q.natAbs % 10)

/-- Model of `Logger::logSet`, the `int` overload. -/
def Logger.logSetInt (l : Logger) (reg subreg : String) (setting : Int) (success : Bool)
    (out : Serial) : Bool × Serial :=
  Logger.logSet l reg subreg (printInt setting) success out

/-- Model of `Logger::logSet`, the `float` overload. -/
def Logger.logSetFloat (l : Logger) (reg subreg : String) (setting : Int) (success : Bool)
    (out : Serial) : Bool × Serial :=
  Logger.logSet l reg subreg (printCenti setting) success out

/-- Model of `Logger::logSet`, the `unsigned int` overload. -/
def Logger.logSetUInt (l : Logger) (reg subreg : String) (setting : Nat) (success : Bool)
    (out : Serial) : Bool × Serial :=
  Logger.logSet l reg subreg (printUInt setting) success out

/-! ## Transport (drv.cpp, lines 70 to 118) -/

/-- One `SPI.transfer16` as seen on the wire: the chip-select level while the frame was clocked
out, and the frame. -/
structure Transfer where
  scs : Bool
  frame : Nat
  deriving DecidableEq, Repr

/-- The device at the far end of the bus: given its state and a 16-bit frame it answers with a
response and a new state. -/
abbrev Spi (β : Type) := β → Nat → Nat × β

/-- State of the driver and of what it is wired to. -/
structure Drv (β : Type) where
  /-- State of the device on the bus. -/
  chip : β
  /-- Level of the chip-select pin `_SCS`. -/
  scs : Bool
  /-- True between `SPI.beginTransaction` and `SPI.endTransaction`. -/
  busy : Bool
  /-- Every transfer made so far, oldest first. -/
  wire : List Transfer
  /-- The array `faults`. -/
  faults : Fin 6 → Bool
  /-- The file-scope `logger`. -/
  logger : Logger
  /-- The text written to the serial port. -/
  serial : Serial

/-- Register addresses. -/
abbrev CTRL : Nat := 0x0
/-- Register address of TORQUE. -/
abbrev TORQUE : Nat := 0x1
/-- Register address of OFF. -/
abbrev OFF : Nat := 0x2
/-- Register address of BLANK. -/
abbrev BLANK : Nat := 0x3
/-- Register address of DECAY. -/
abbrev DECAY : Nat := 0x4
/-- Register address of DRIVE. -/
abbrev DRIVE : Nat := 0x6
/-- Register address of STATUS. -/
abbrev STATUS : Nat := 0x7

/-- The table `initRegs` of the constructor. -/
def initRegs : List Nat := [0x301, 0x0FF, 0x130, 0x080, 0x010, 0x000, 0xFA5, 0x000]

variable {β : Type}

/-- Model of `drv::open`. -/
def drv.openBus (d : Drv β) : Drv β := { d with scs := true, busy := true }

/-- Model of `drv::close`. -/
def drv.closeBus (d : Drv β) : Drv β := { d with busy := false, scs := false }

/-- Model of `SPI.transfer16`: the argument and the result are `uint16_t`. -/
def SPI.transfer16 (spi : Spi β) (data : Nat) (d : Drv β) : Nat × Drv β :=
  let data := data % 65536
  let r := spi d.chip data
  (r.1 % 65536, { d with chip := r.2, wire := d.wire ++ [⟨d.scs, data⟩] })

/-- The frame `drv::read` builds from its argument. -/
def drv.readFrame (address : Nat) : Nat :=
  let address := (address <<< 12) % 65536
  address ||| 0x8000

/-- Model of `drv::read`. -/
def drv.read (spi : Spi β) (address : Nat) (d : Drv β) : Nat × Drv β :=
  let address := drv.readFrame address
  let d := drv.openBus d
  let r := SPI.transfer16 spi address d
  (r.1, drv.closeBus r.2)

/-- The packet `drv::write` builds from its arguments. -/
def drv.writeFrame (address value : Nat) : Nat :=
  let address := (address <<< 12) % 65536
  let address := address &&& not16 0x8000
  address ||| value

/-- Model of `drv::write`. -/
def drv.write (spi : Spi β) (address value : Nat) (d : Drv β) : Drv β :=
  let packet := drv.writeFrame address value
  let d := drv.openBus d
  let r := SPI.transfer16 spi packet d
  drv.closeBus r.2

/-! ## Getters (drv.cpp, lines 438 to 618) -/

/-- Model of `drv::getHbridge`. -/
def drv.getHbridge (spi : Spi β) (d : Drv β) : String × Drv β :=
  let r := drv.read spi CTRL d
  let current := r.1 &&& 0x001
  let get := "none"
  let get := if current = 0 then "off" else if current = 1 then "on" else get
  (get, r.2)

/-- Model of `drv::getISGain`. -/
def drv.getISGain (spi : Spi β) (d : Drv β) : Int × Drv β :=
  let r := drv.read spi CTRL d
  let current := r.1 &&& 0x300
  let get : Int := 0
  let get : Int :=
    if current = 0x000 then 5 else if current = 0x100 then 10
    else if current = 0x200 then 20 else if current = 0x300 then 40 else get
  (get, r.2)

/-- Model of `drv::getDTime`. -/
def drv.getDTime (spi : Spi β) (d : Drv β) : Int × Drv β :=
  let r := drv.read spi CTRL d
  let current := r.1 &&& 0xC00
  let get : Int := 0
  let get : Int :=
    if current = 0x000 then 410 else if current = 0x400 then 460
    else if current = 0x800 then 670 else if current = 0xC00 then 880 else get
  (get, r.2)

/-- Model of `drv::getTorque`. -/
def drv.getTorque (spi : Spi β) (d : Drv β) : Nat × Drv β :=
  let r := drv.read spi TORQUE d
  (r.1 &&& 0x0FF, r.2)

/-- Model of `drv::getTOff`. -/
def drv.getTOff (spi : Spi β) (d : Drv β) : Nat × Drv β :=
  let r := drv.read spi OFF d
  (r.1 &&& 0x0FF, r.2)

/-- Model of `drv::getTBlank`. -/
def drv.getTBlank (spi : Spi β) (d : Drv β) : Nat × Drv β :=
  let r := drv.read spi BLANK d
  (r.1 &&& 0x0FF, r.2)

/-- Model of `drv::getTDecay`. -/
def drv.getTDecay (spi : Spi β) (d : Drv β) : Nat × Drv β :=
  let r := drv.read spi DECAY d
  (r.1 &&& 0x0FF, r.2)

/-- Model of `drv::getDecMode`. -/
def drv.getDecMode (spi : Spi β) (d : Drv β) : String × Drv β :=
  let r := drv.read spi DECAY d
  let current := r.1 &&& 0x700
  let get := "none"
  let get :=
    if current = 0x000 then "slow" else if current = 0x200 then "fast"
    else if current = 0x300 then "mixed" else if current = 0x500 then "auto" else get
  (get, r.2)

/-- Model of `drv::getOCPThresh`. -/
def drv.getOCPThresh (spi : Spi β) (d : Drv β) : Int × Drv β :=
  let r := drv.read spi DRIVE d
  let current := r.1 &&& 0x003
  let get : Int := 0
  let get : Int :=
    if current = 0x000 then 250 else if current = 0x001 then 500
    else if current = 0x002 then 750 else if current = 0x003 then 1000 else get
  (get, r.2)

/-- Model of `drv::getOCPDeglitchTime`; the result is in hundredths of a microsecond. -/
def drv.getOCPDeglitchTime (spi : Spi β) (d : Drv β) : Int × Drv β :=
  let r := drv.read spi DRIVE d
  let current := r.1 &&& 0x00C
  let get : Int := 0
  let get : Int :=
    if current = 0x000 then 105 else if current = 0x002 then 210
    else if current = 0x004 then 420 else if current = 0x00C then 840 else get
  (get, r.2)

/-- Model of `drv::getTDriveN`. -/
def drv.getTDriveN (spi : Spi β) (d : Drv β) : Int × Drv β :=
  let r := drv.read spi DRIVE d
  let current := r.1 &&& 0x030
  let get : Int := 0
  let get : Int :=
    if current = 0x000 then 263 else if current = 0x010 then 525
    else if current = 0x020 then 1050 else if current = 0x030 then 2100 else get
  (get, r.2)

/-- Model of `drv::getTDriveP`. -/
def drv.getTDriveP (spi : Spi β) (d : Drv β) : Int × Drv β :=
  let r := drv.read spi DRIVE d
  let current := r.1 &&& 0x0C0
  let get : Int := 0
  let get : Int :=
    if current = 0x000 then 263 else if current = 0x040 then 525
    else if current = 0x080 then 1050 else if current = 0x0C0 then 2100 else get
  (get, r.2)

/-- Model of `drv::getIDriveN`. -/
def drv.getIDriveN (spi : Spi β) (d : Drv β) : Int × Drv β :=
  let r := drv.read spi DRIVE d
  let current := r.1 &&& 0x300
  let get : Int := 0
  let get : Int :=
    if current = 0x000 then 100 else if current = 0x100 then 200
    else if current = 0x200 then 300 else if current = 0x300 then 400 else get
  (get, r.2)

/-- Model of `drv::getIDriveP`. -/
def drv.getIDriveP (spi : Spi β) (d : Drv β) : Int × Drv β :=
  let r := drv.read spi DRIVE d
  let current := r.1 &&& 0xC00
  let get : Int := 0
  let get : Int :=
    if current = 0x000 then 50 else if current = 0x400 then 100
    else if current = 0x800 then 150 else if current = 0xC00 then 200 else get
  (get, r.2)

/-- One statement `if (current & m) { faults[k] = true; }` of `drv::getFault`. -/
def drv.raiseIf (current m : Nat) (k : Fin 6) (d : Drv β) : Drv β :=
  if current &&& m ≠ 0 then { d with faults := Function.update d.faults k true } else d

/-- Model of `drv::getFault`: the read of STATUS, then the six statements in order. -/
def drv.getFault (spi : Spi β) (d : Drv β) : Drv β :=
  let r := drv.read spi STATUS d
  let current := r.1 &&& 0x03F
  let d := r.2
  let d := drv.raiseIf current 0x1 0 d
  let d := drv.raiseIf current 0x2 1 d
  let d := drv.raiseIf current 0x4 2 d
  let d := drv.raiseIf current 0x8 3 d
  let d := drv.raiseIf current 0x10 4 d
  let d := drv.raiseIf current 0x20 5 d
  d

/-- Model of `drv::clearFault`. -/
def drv.clearFault (spi : Spi β) (value : Nat) (d : Drv β) : Drv β :=
  drv.write spi STATUS (0 <<< value) d

/-- Model of `drv::setLogging`. -/
def drv.setLogging (level : String) (d : Drv β) : Drv β :=
  { d with
    logger := Logger.setLevel d.logger level
    serial := Serial.println level (Serial.print "DRV8704 - Log level set: "
      (Serial.println "REV - DRV8704 driver loaded" d.serial)) }

/-! ## Setters (drv.cpp, lines 130 to 434)

Every setter but `setDTime` leaves through `return false` in its last `else`; in the models that
branch is the `none` of `outgoing`. -/

/-- Tail shared by the setters of `int` fields: `write`, then `logSet` of the read-back. -/
def drv.finishInt (spi : Spi β) (address : Nat) (reg subreg : String) (value : Int)
    (getter : Drv β → Int × Drv β) (outgoing : Nat) (d : Drv β) : Bool × Drv β :=
  let d := drv.write spi address outgoing d
  let g := getter d
  let l := Logger.logSetInt g.2.logger reg subreg value (decide (g.1 = value)) g.2.serial
  (l.1, { g.2 with serial := l.2 })

/-- Tail shared by the setters of `unsigned int` fields. -/
def drv.finishUInt (spi : Spi β) (address : Nat) (reg subreg : String) (value : Nat)
    (getter : Drv β → Nat × Drv β) (outgoing : Nat) (d : Drv β) : Bool × Drv β :=
  let d := drv.write spi address outgoing d
  let g := getter d
  let l := Logger.logSetUInt g.2.logger reg subreg value (decide (g.1 = value)) g.2.serial
  (l.1, { g.2 with serial := l.2 })

/-- Tail shared by the setters of `char*` fields. -/
def drv.finishText (spi : Spi β) (address : Nat) (reg subreg : String) (value : String)
    (getter : Drv β → String × Drv β) (outgoing : Nat) (d : Drv β) : Bool × Drv β :=
  let d := drv.write spi address outgoing d
  let g := getter d
  let l := Logger.logSet g.2.logger reg subreg value (decide (g.1 = value)) g.2.serial
  (l.1, { g.2 with serial := l.2 })

/-- Tail of the setter of the `float` field. -/
def drv.finishFloat (spi : Spi β) (address : Nat) (reg subreg : String) (value : Int)
    (getter : Drv β → Int × Drv β) (outgoing : Nat) (d : Drv β) : Bool × Drv β :=
  let d := drv.write spi address outgoing d
  let g := getter d
  let l := Logger.logSetFloat g.2.logger reg subreg value (decide (g.1 = value)) g.2.serial
  (l.1, { g.2 with serial := l.2 })

/-- The rejecting branch of a setter: `logger.loge(msg); return false;`. -/
def drv.reject (msg : String) (d : Drv β) : Bool × Drv β :=
  (false, { d with serial := Logger.loge d.logger msg d.serial })

/-- Model of `drv::setHbridge`. -/
def drv.setHbridge (spi : Spi β) (value : String) (d : Drv β) : Bool × Drv β :=
  let r := drv.read spi CTRL d
  let current := r.1 &&& not16 0xF000
  let outgoing : Option Nat :=
    if value = "off" then some (current &&& not16 0x001)
    else if value = "on" then some (current ||| 0x001)
    else none
  match outgoing with
  | none => drv.reject "ENBL set: invalid input" r.2
  | some outgoing =>
    drv.finishText spi CTRL "CTRL" "ENBL" value (drv.getHbridge spi) outgoing r.2

/-- Model of `drv::setISGain`. -/
def drv.setISGain (spi : Spi β) (value : Int) (d : Drv β) : Bool × Drv β :=
  let r := drv.read spi CTRL d
  let current := r.1 &&& not16 0xF000
  let outgoing : Option Nat :=
    if value = 5 then some (current &&& not16 0x300)
    else if value = 10 then some ((current ||| 0x100) &&& not16 0x200)
    else if value = 20 then some ((current ||| 0x200) &&& not16 0x100)
    else if value = 40 then some (current ||| 0x300)
    else none
  match outgoing with
  | none => drv.reject "ISGAIN set: invalid input" r.2
  | some outgoing =>
    drv.finishInt spi CTRL "CTRL" "ISGAIN" value (drv.getISGain spi) outgoing r.2

/-- Model of `drv::setDTime`.  Its last `else` logs and does not return, so the write and the
read-back below it run for every argument. -/
def drv.setDTime (spi : Spi β) (value : Int) (d : Drv β) : Bool × Drv β :=
  let r := drv.read spi CTRL d
  let current := r.1 &&& not16 0xF000
  let d := r.2
  let step : Nat × Drv β :=
    if value = 410 then (current &&& not16 0xC00, d)
    else if value = 460 then ((current ||| 0x400) &&& not16 0x800, d)
    else if value = 670 then ((current ||| 0x800) &&& not16 0x400, d)
    else if value = 880 then (current ||| 0xC00, d)
    else (current, { d with serial := Logger.loge d.logger "DTIME set: invalid input" d.serial })
  drv.finishInt spi CTRL "CTRL" "DTIME" value (drv.getDTime spi) step.1 step.2

/-- Model of `drv::setTorque`. -/
def drv.setTorque (spi : Spi β) (value : Nat) (d : Drv β) : Bool × Drv β :=
  let r := drv.read spi TORQUE d
  let current := r.1 &&& not16 0xF000
  let outgoing : Option Nat :=
    if value ≤ 255 ∧ value ≥ 0 then some ((current &&& 0xF00) ||| value)
    else none
  match outgoing with
  | none => drv.reject "TORQUE set: invalid input" r.2
  | some outgoing =>
    drv.finishUInt spi TORQUE "TORQUE" "TORQUE" value (drv.getTorque spi) outgoing r.2

/-- Model of `drv::setTOff`. -/
def drv.setTOff (spi : Spi β) (value : Nat) (d : Drv β) : Bool × Drv β :=
  let r := drv.read spi OFF d
  let current := r.1 &&& not16 0xF000
  let outgoing : Option Nat :=
    if value ≤ 255 ∧ value ≥ 0 then some ((current &&& 0xF00) ||| value)
    else none
  match outgoing with
  | none => drv.reject "TOFF set: invalid input" r.2
  | some outgoing =>
    drv.finishUInt spi OFF "OFF" "TOFF" value (drv.getTOff spi) outgoing r.2

/-- Model of `drv::setTBlank`. -/
def drv.setTBlank (spi : Spi β) (value : Nat) (d : Drv β) : Bool × Drv β :=
  let r := drv.read spi BLANK d
  let current := r.1 &&& not16 0xF000
  let outgoing : Option Nat :=
    if value ≤ 255 ∧ value ≥ 0 then some ((current &&& 0xF00) ||| value)
    else none
  match outgoing with
  | none => drv.reject "TBLANK set: invalid input" r.2
  | some outgoing =>
    drv.finishUInt spi BLANK "BLANK" "TBLANK" value (drv.getTBlank spi) outgoing r.2

/-- Model of `drv::setTDecay`. -/
def drv.setTDecay (spi : Spi β) (value : Nat) (d : Drv β) : Bool × Drv β :=
  let r := drv.read spi DECAY d
  let current := r.1 &&& not16 0xF000
  let outgoing : Option Nat :=
    if value ≤ 255 ∧ value ≥ 0 then some ((current &&& 0xF00) ||| value)
    else none
  match outgoing with
  | none => drv.reject "TDECAY set: invalid input" r.2
  | some outgoing =>
    drv.finishUInt spi DECAY "DECAY" "TDECAY" value (drv.getTDecay spi) outgoing r.2

/-- Model of `drv::setDecMode`. -/
def drv.setDecMode (spi : Spi β) (value : String) (d : Drv β) : Bool × Drv β :=
  let r := drv.read spi DECAY d
  let current := r.1 &&& not16 0xF000
  let outgoing : Option Nat :=
    if value = "slow" then some (current &&& not16 0x700)
    else if value = "fast" then some ((current &&& not16 0x700) ||| 0x200)
    else if value = "mixed" then some ((current &&& not16 0x700) ||| 0x300)
    else if value = "auto" then some ((current &&& not16 0x700) ||| 0x500)
    else none
  match outgoing with
  | none => drv.reject "DECMOD set: invalid input" r.2
  | some outgoing =>
    drv.finishText spi DECAY "DECAY" "DECMOD" value (drv.getDecMode spi) outgoing r.2

/-- Model of `drv::setOCPThresh`. -/
def drv.setOCPThresh (spi : Spi β) (value : Int) (d : Drv β) : Bool × Drv β :=
  let r := drv.read spi DRIVE d
  let current := r.1 &&& not16 0xF000
  let outgoing : Option Nat :=
    if value = 250 then some (current &&& not16 0x003)
    else if value = 500 then some ((current &&& not16 0x003) ||| 0x001)
    else if value = 750 then some ((current &&& not16 0x003) ||| 0x002)
    else if value = 1000 then some (current ||| 0x003)
    else none
  match outgoing with
  | none => drv.reject "OCPTH set: invalid input" r.2
  | some outgoing =>
    drv.finishInt spi DRIVE "DRIVE" "OCPTH" value (drv.getOCPThresh spi) outgoing r.2

/-- Model of `drv::setOCPDeglitchTime`; `value` is in hundredths of a microsecond, so
`1.05`, `2.1`, `4.2` and `8.4` are `105`, `210`, `420` and `840`. -/
def drv.setOCPDeglitchTime (spi : Spi β) (value : Int) (d : Drv β) : Bool × Drv β :=
  let r := drv.read spi DRIVE d
  let current := r.1 &&& not16 0xF000
  let outgoing : Option Nat :=
    if value = 105 then some (current &&& not16 0x00C)
    else if value = 210 then some ((current &&& not16 0x00C) ||| 0x004)
    else if value = 420 then some ((current &&& not16 0x00C) ||| 0x008)
    else if value = 840 then some (current ||| 0x00C)
    else none
  match outgoing with
  | none => drv.reject "OCPDEG set: invalid input" r.2
  | some outgoing =>
    drv.finishFloat spi DRIVE "DRIVE" "OCPTH" value (drv.getOCPDeglitchTime spi) outgoing r.2

/-- Model of `drv::setTDriveN`. -/
def drv.setTDriveN (spi : Spi β) (value : Int) (d : Drv β) : Bool × Drv β :=
  let r := drv.read spi DRIVE d
  let current := r.1 &&& not16 0xF000
  let outgoing : Option Nat :=
    if value = 263 then some (current &&& not16 0x030)
    else if value = 525 then some ((current &&& not16 0x030) ||| 0x010)
    else if value = 1050 then some ((current &&& not16 0x030) ||| 0x020)
    else if value = 2100 then some (current ||| 0x030)
    else none
  match outgoing with
  | none => drv.reject "TDRIVEN set: invalid input" r.2
  | some outgoing =>
    drv.finishInt spi DRIVE "DRIVE" "TDRIVEN" value (drv.getTDriveN spi) outgoing r.2

/-- Model of `drv::setTDriveP`. -/
def drv.setTDriveP (spi : Spi β) (value : Int) (d : Drv β) : Bool × Drv β :=
  let r := drv.read spi DRIVE d
  let current := r.1 &&& not16 0xF000
  let outgoing : Option Nat :=
    if value = 263 then some (current &&& not16 0x0C0)
    else if value = 525 then some ((current &&& not16 0x0C0) ||| 0x040)
    else if value = 1050 then some ((current &&& not16 0x0C0) ||| 0x080)
    else if value = 2100 then some (current ||| 0x0C0)
    else none
  match outgoing with
  | none => drv.reject "TDRIVEP set: invalid input" r.2
  | some outgoing =>
    drv.finishInt spi DRIVE "DRIVE" "TDRIVEP" value (drv.getTDriveP spi) outgoing r.2

/-- Model of `drv::setIDriveN`. -/
def drv.setIDriveN (spi : Spi β) (value : Int) (d : Drv β) : Bool × Drv β :=
  let r := drv.read spi DRIVE d
  let current := r.1 &&& not16 0xF000
  let outgoing : Option Nat :=
    if value = 100 then some (current &&& not16 0x300)
    else if value = 200 then some ((current &&& not16 0x300) ||| 0x100)
    else if value = 300 then some ((current &&& not16 0x300) ||| 0x200)
    else if value = 400 then some (current ||| 0x300)
    else none
  match outgoing with
  | none => drv.reject "IDRIVEN set: invalid input" r.2
  | some outgoing =>
    drv.finishInt spi DRIVE "DRIVE" "IDRIVEN" value (drv.getIDriveN spi) outgoing r.2

/-- Model of `drv::setIDriveP`. -/
def drv.setIDriveP (spi : Spi β) (value : Int) (d : Drv β) : Bool × Drv β :=
  let r := drv.read spi DRIVE d
  let current := r.1 &&& not16 0xF000
  let outgoing : Option Nat :=
    if value = 50 then some (current &&& not16 0xC00)
    else if value = 100 then some ((current &&& not16 0xC00) ||| 0x400)
    else if value = 150 then some ((current &&& not16 0xC00) ||| 0x800)
    else if value = 200 then some (current ||| 0xC00)
    else none
  match outgoing with
  | none => drv.reject "IDRIVEP set: invalid input" r.2
  | some outgoing =>
    drv.finishInt spi DRIVE "DRIVE" "IDRIVEP" value (drv.getIDriveP spi) outgoing r.2

/-! ## The fault-free bus

The device the specification assumes when it says "fault-free bus": a file of eight 12-bit
registers; a write frame stores its payload at its address, a read frame returns the stored
value. -/

/-- Contents of the eight 12-bit registers. -/
abbrev RegFile := Fin 8 → Fin 4096

/-- Bit 15 of a frame: set for a read, clear for a write. -/
def frameIsRead (frame : Nat) : Bool := frame.testBit 15

/-- Bits 14:12 of a frame: the register address. -/
def frameAddr (frame : Nat) : Fin 8 := ⟨frame / 4096 % 8, Nat.mod_lt _ (by decide)⟩

/-- Bits 11:0 of a frame: the payload. -/
def framePayload (frame : Nat) : Fin 4096 := ⟨frame % 4096, Nat.mod_lt _ (by decide)⟩

/-- The fault-free device. -/
def idealChip : Spi RegFile := fun regs frame =>
  if frameIsRead frame = true then ((regs (frameAddr frame)).val, regs)
  else (0, Function.update regs (frameAddr frame) (framePayload frame))

/-- A device that answers every frame with `r`: a bus whose response has bits above the
payload set when `r` has. -/
def constChip (r : Nat) : Spi Unit := fun _ _ => (r, ())

/-- The register file holding `initRegs`. -/
def initRegFile : RegFile := fun a => ⟨initRegs.getD a.val 0 % 4096, Nat.mod_lt _ (by decide)⟩

/-- A driver freshly constructed and wired to the device state `chip`: chip-select low, nothing
transferred, no fault recorded, logger `("DRV8704", "info")`. -/
def drv.init (chip : β) : Drv β :=
  { chip := chip, scs := false, busy := false, wire := [], faults := fun _ => false,
    logger := ⟨"DRV8704", "info"⟩, serial := [] }

/-- The frames put on the bus between the states `d` and `e`. -/
def framesSince (d e : Drv β) : List Nat := (e.wire.drop d.wire.length).map Transfer.frame

/-! ## The fields, uniformly -/

/-- The fourteen fields that have a setter and a getter. -/
inductive Field where
  | ENBL | ISGAIN | DTIME | TORQUE | TOFF | TBLANK | TDECAY | DECMOD
  | OCPTH | OCPDEG | TDRIVEN | TDRIVEP | IDRIVEN | IDRIVEP
  deriving DecidableEq, Repr

/-- Kind of value a field takes: the C++ type of its setter's argument. -/
inductive Kind where
  | text | int | uint | float
  deriving DecidableEq, Repr

/-- The kind of each field, from the signatures in `drv.h`. -/
def Field.kind : Field → Kind
  | .ENBL | .DECMOD => .text
  | .TORQUE | .TOFF | .TBLANK | .TDECAY => .uint
  | .OCPDEG => .float
  | _ => .int

/-- Values of a kind. -/
abbrev Kind.Val : Kind → Type
  | .text => String
  | .int => Int
  | .uint => Nat
  | .float => Int

/-- Values of a field. -/
abbrev Field.Val (f : Field) : Type := f.kind.Val

instance (k : Kind) : DecidableEq k.Val := by
  cases k <;> (unfold Kind.Val; infer_instance)

/-- The setter of each field. -/
def Field.set (spi : Spi β) : (f : Field) → f.Val → Drv β → Bool × Drv β
  | .ENBL => drv.setHbridge spi
  | .ISGAIN => drv.setISGain spi
  | .DTIME => drv.setDTime spi
  | .TORQUE => drv.setTorque spi
  | .TOFF => drv.setTOff spi
  | .TBLANK => drv.setTBlank spi
  | .TDECAY => drv.setTDecay spi
  | .DECMOD => drv.setDecMode spi
  | .OCPTH => drv.setOCPThresh spi
  | .OCPDEG => drv.setOCPDeglitchTime spi
  | .TDRIVEN => drv.setTDriveN spi
  | .TDRIVEP => drv.setTDriveP spi
  | .IDRIVEN => drv.setIDriveN spi
  | .IDRIVEP => drv.setIDriveP spi

/-- The getter of each field. -/
def Field.get (spi : Spi β) : (f : Field) → Drv β → f.Val × Drv β
  | .ENBL => drv.getHbridge spi
  | .ISGAIN => drv.getISGain spi
  | .DTIME => drv.getDTime spi
  | .TORQUE => drv.getTorque spi
  | .TOFF => drv.getTOff spi
  | .TBLANK => drv.getTBlank spi
  | .TDECAY => drv.getTDecay spi
  | .DECMOD => drv.getDecMode spi
  | .OCPTH => drv.getOCPThresh spi
  | .OCPDEG => drv.getOCPDeglitchTime spi
  | .TDRIVEN => drv.getTDriveN spi
  | .TDRIVEP => drv.getTDriveP spi
  | .IDRIVEN => drv.getIDriveN spi
  | .IDRIVEP => drv.getIDriveP spi

/-! ## The field table of the specification (section 4.2) -/

/-- Register the table names for the field. -/
def Field.reg : Field → Nat
  | .ENBL | .ISGAIN | .DTIME => DRV8704.CTRL
  | .TORQUE => DRV8704.TORQUE
  | .TOFF => DRV8704.OFF
  | .TBLANK => DRV8704.BLANK
  | .TDECAY | .DECMOD => DRV8704.DECAY
  | _ => DRV8704.DRIVE

/-- Lowest bit of the field's bit range in the table. -/
def Field.lo : Field → Nat
  | .ENBL => 0 | .ISGAIN => 8 | .DTIME => 10
  | .TORQUE | .TOFF | .TBLANK | .TDECAY => 0
  | .DECMOD => 8
  | .OCPTH => 0 | .OCPDEG => 2 | .TDRIVEN => 4 | .TDRIVEP => 6 | .IDRIVEN => 8 | .IDRIVEP => 10

/-- Number of bits of the field's bit range in the table. -/
def Field.width : Field → Nat
  | .ENBL => 1
  | .TORQUE | .TOFF | .TBLANK | .TDECAY => 8
  | .DECMOD => 3
  | _ => 2

/-- One row of a four-valued integer field: the pattern of `v` when the legal values, in the
order of the patterns 00, 01, 10, 11, are `a`, `b`, `c`, `e`. -/
def fourValued (a b c e : Int) (v : Int) : Option Nat :=
  if v = a then some 0 else if v = b then some 1 else if v = c then some 2
  else if v = e then some 3 else none

/-- The table's column "domain → encoding": the bit pattern of a legal value, `none` for a value
outside the field's legal domain. -/
def Field.pattern : (f : Field) → f.Val → Option Nat
  | .ENBL => fun (v : String) => if v = "off" then some 0 else if v = "on" then some 1 else none
  | .ISGAIN => fourValued 5 10 20 40
  | .DTIME => fourValued 410 460 670 880
  | .TORQUE => fun (v : Nat) => if v ≤ 255 then some v else none
  | .TOFF => fun (v : Nat) => if v ≤ 255 then some v else none
  | .TBLANK => fun (v : Nat) => if v ≤ 255 then some v else none
  | .TDECAY => fun (v : Nat) => if v ≤ 255 then some v else none
  | .DECMOD => fun (v : String) =>
      if v = "slow" then some 0 else if v = "fast" then some 2
      else if v = "mixed" then some 3 else if v = "auto" then some 5 else none
  | .OCPTH => fourValued 250 500 750 1000
  | .OCPDEG => fourValued 105 210 420 840
  | .TDRIVEN => fourValued 263 525 1050 2100
  | .TDRIVEP => fourValued 263 525 1050 2100
  | .IDRIVEN => fourValued 100 200 300 400
  | .IDRIVEP => fourValued 50 100 150 200

/-- A value is legal for a field when the table has a pattern for it. -/
def Field.legal (f : Field) (v : f.Val) : Prop := (f.pattern v).isSome = true

instance (f : Field) (v : f.Val) : Decidable (f.legal v) := by
  unfold Field.legal; infer_instance

/-- The bits of a 12-bit register that belong to the field. -/
def Field.mask (f : Field) : Nat := (2 ^ f.width - 1) <<< f.lo

/-- Bit `i` of a register lies in the field's bit range. -/
def Field.covers (f : Field) (i : Nat) : Prop := f.lo ≤ i ∧ i < f.lo + f.width

/-- The content of the field's bit range in the 12-bit word `w`. -/
def Field.extract (f : Field) (w : Nat) : Nat := (w >>> f.lo) % 2 ^ f.width

/-- Step (3) of the setter algorithm: clear the bits `mask` of `cur` and OR in `code`. -/
def insertField (mask code cur : Nat) : Nat := (cur &&& (0xFFF ^^^ mask)) ||| code

/-! ## Derived definitions used by the statements -/

/-- Decoding chain of a four-valued integer getter: the masked register value `current` is
compared with `m0`, `m1`, `m2`, `m3` in turn; the initial value of `get` is `0`. -/
def fourDecode (m0 m1 m2 m3 : Nat) (a b c e : Int) (current : Nat) : Int :=
  if current = m0 then a else if current = m1 then b
  else if current = m2 then c else if current = m3 then e else 0

/-- Decoding chain of `getHbridge`. -/
def twoText (m0 m1 : Nat) (a b : String) (current : Nat) : String :=
  if current = m0 then a else if current = m1 then b else "none"

/-- Decoding chain of `getDecMode`. -/
def fourText (m0 m1 m2 m3 : Nat) (a b c e : String) (current : Nat) : String :=
  if current = m0 then a else if current = m1 then b
  else if current = m2 then c else if current = m3 then e else "none"

/-- The decoding table of each getter, applied to the masked register value `current`. -/
def Field.decode : (f : Field) → Nat → f.Val
  | .ENBL => twoText 0 1 "off" "on"
  | .ISGAIN => fourDecode 0x000 0x100 0x200 0x300 5 10 20 40
  | .DTIME => fourDecode 0x000 0x400 0x800 0xC00 410 460 670 880
  | .TORQUE => fun current => current
  | .TOFF => fun current => current
  | .TBLANK => fun current => current
  | .TDECAY => fun current => current
  | .DECMOD => fourText 0x000 0x200 0x300 0x500 "slow" "fast" "mixed" "auto"
  | .OCPTH => fourDecode 0x000 0x001 0x002 0x003 250 500 750 1000
  | .OCPDEG => fourDecode 0x000 0x002 0x004 0x00C 105 210 420 840
  | .TDRIVEN => fourDecode 0x000 0x010 0x020 0x030 263 525 1050 2100
  | .TDRIVEP => fourDecode 0x000 0x040 0x080 0x0C0 263 525 1050 2100
  | .IDRIVEN => fourDecode 0x000 0x100 0x200 0x300 100 200 300 400
  | .IDRIVEP => fourDecode 0x000 0x400 0x800 0xC00 50 100 150 200

/-- State after the read-modify-write of a set whose value has pattern `p`, before the
read-back: the register is read, the field's bits are replaced, the word is written. -/
def Field.written (spi : Spi β) (f : Field) (p : Nat) (d : Drv β) : Drv β :=
  drv.write spi f.reg (insertField f.mask (p <<< f.lo) ((drv.read spi f.reg d).1 % 4096))
    (drv.read spi f.reg d).2

/-- The bus side of a set whose value has pattern `p`, from the device state `c`: the read of
the field's register, the write of the modified word, and the read-back; the result is the
16-bit response to the read-back and the device state after it. -/
def Field.readBack (spi : Spi β) (f : Field) (p : Nat) (c : β) : Nat × β :=
  let r1 := spi c (drv.readFrame f.reg % 65536)
  let outgoing := insertField f.mask (p <<< f.lo) (r1.1 % 65536 % 4096)
  let r2 := spi r1.2 (drv.writeFrame f.reg outgoing % 65536)
  let r3 := spi r2.2 (drv.readFrame f.reg % 65536)
  (r3.1 % 65536, r3.2)

/-! ## Logger levels and kinds of report -/

/-- The four recognised logger levels, in the order off < global < error < info. -/
inductive Level where
  | off | global | error | info
  deriving DecidableEq, Repr

/-- The name of a level, as stored in `lvl`. -/
def Level.name : Level → String
  | .off => "off"
  | .global => "global"
  | .error => "error"
  | .info => "info"

/-- Position of a level in the order off < global < error < info. -/
def Level.rank : Level → Nat
  | .off => 0
  | .global => 1
  | .error => 2
  | .info => 3

/-- The kinds of report the logger makes. -/
inductive Report where
  | logi | loge | logg | logSetSuccess | logSetFailure
  deriving DecidableEq, Repr

/-- The serial output after one report of kind `k` by the logger `l`: `message` is the message
of `logi`, `loge`, `logg` and the setting of `logSet`. -/
def Report.run (l : Logger) (k : Report) (reg subreg message : String) (out : Serial) : Serial :=
  match k with
  | .logi => Logger.logi l message out
  | .loge => Logger.loge l message out
  | .logg => Logger.logg l message out
  | .logSetSuccess => (Logger.logSet l reg subreg message true out).2
  | .logSetFailure => (Logger.logSet l reg subreg message false out).2

/-- A report is emitted when it writes to the serial port. -/
def Report.emitted (l : Logger) (k : Report) (reg subreg message : String) (out : Serial) :
    Prop :=
  Report.run l k reg subreg message out ≠ out

/-! ## Bit-level lemmas -/

theorem testBit_65535 (i : Nat) : Nat.testBit 65535 i = decide (i < 16) :=
  Nat.testBit_two_pow_sub_one 16 i

theorem testBit_4095 (i : Nat) : Nat.testBit 4095 i = decide (i < 12) :=
  Nat.testBit_two_pow_sub_one 12 i

theorem testBit_of_lt_4096 {m i : Nat} (hm : m < 4096) (hi : 12 ≤ i) : m.testBit i = false := by
  have h : (2 : Nat) ^ 12 ≤ 2 ^ i := Nat.pow_le_pow_right (by decide) hi
  exact Nat.testBit_lt_two_pow (lt_of_lt_of_le hm h)

theorem and_not16_F000 (r : Nat) : r &&& not16 0xF000 = r % 4096 :=
  Nat.and_pow_two_sub_one_eq_mod r 12

theorem lt_4096_of_testBit {x : Nat} (h : ∀ i, 12 ≤ i → x.testBit i = false) : x < 4096 :=
  Nat.lt_pow_two_of_testBit x h

theorem insertField_lt {mask code cur : Nat} (hm : mask < 4096) (hc : code < 4096) :
    insertField mask code cur < 4096 := by
  apply lt_4096_of_testBit
  intro i hi
  have h1 : ¬ i < 12 := by omega
  simp [insertField, testBit_4095, testBit_of_lt_4096 hc hi, testBit_of_lt_4096 hm hi, h1]

theorem form_clear {cur mask : Nat} (hcur : cur < 4096) :
    cur &&& not16 mask = insertField mask 0 cur := by
  apply Nat.eq_of_testBit_eq
  intro i
  by_cases hi : i < 12
  · have : i < 16 := by omega
    simp [insertField, not16, testBit_65535, testBit_4095, hi, this]
  · simp [insertField, not16, testBit_65535, testBit_4095, hi,
      testBit_of_lt_4096 hcur (Nat.le_of_not_lt hi)]

theorem form_set_clear {cur c e : Nat} (hcur : cur < 4096) (hc : c < 4096)
    (hd : c &&& e = 0) :
    (cur ||| c) &&& not16 e = insertField (c ||| e) c cur := by
  apply Nat.eq_of_testBit_eq
  intro i
  have hb : (c.testBit i && e.testBit i) = false := by
    rw [← Nat.testBit_and, hd]; simp
  by_cases hi : i < 12
  · have : i < 16 := by omega
    simp only [insertField, not16, Nat.testBit_and, Nat.testBit_or, Nat.testBit_xor,
      testBit_65535, testBit_4095, hi, this, decide_True]
    cases h1 : cur.testBit i <;> cases h2 : c.testBit i <;> cases h3 : e.testBit i <;>
      simp_all
  · have h12 := Nat.le_of_not_lt hi
    simp [insertField, not16, testBit_65535, testBit_4095, hi,
      testBit_of_lt_4096 hcur h12, testBit_of_lt_4096 hc h12]

theorem form_clear_set {cur mask c : Nat} (hcur : cur < 4096) :
    (cur &&& not16 mask) ||| c = insertField mask c cur := by
  rw [form_clear hcur]; simp [insertField]

theorem form_set {cur mask : Nat} (hcur : cur < 4096) :
    cur ||| mask = insertField mask mask cur := by
  apply Nat.eq_of_testBit_eq
  intro i
  by_cases hi : i < 12
  · simp only [insertField, Nat.testBit_and, Nat.testBit_or, Nat.testBit_xor,
      testBit_4095, hi, decide_True]
    cases h1 : cur.testBit i <;> cases h2 : mask.testBit i <;> simp_all
  · simp [insertField, testBit_4095, hi, testBit_of_lt_4096 hcur (Nat.le_of_not_lt hi)]

theorem form_byte {cur v : Nat} : (cur &&& 0xF00) ||| v = insertField 0xFF v cur := by
  simp [insertField]

/-- The field's bits of the new word are the code. -/
theorem insertField_and_mask {mask code cur : Nat} (hm : mask < 4096)
    (hc : code &&& mask = code) : insertField mask code cur &&& mask = code := by
  apply Nat.eq_of_testBit_eq
  intro i
  have hb : (code.testBit i && mask.testBit i) = code.testBit i := by
    rw [← Nat.testBit_and, hc]
  by_cases hi : i < 12
  · simp only [insertField, Nat.testBit_and, Nat.testBit_or, Nat.testBit_xor,
      testBit_4095, hi, decide_True]
    cases h1 : cur.testBit i <;> cases h2 : mask.testBit i <;> cases h3 : code.testBit i <;>
      simp_all
  · have h12 := Nat.le_of_not_lt hi
    have hm0 := testBit_of_lt_4096 hm h12
    simp only [insertField, Nat.testBit_and, Nat.testBit_or, hm0, Bool.and_false]
    rw [← hb, hm0]; simp

/-- The bits outside the mask are those of the old word. -/
theorem insertField_testBit_outside {mask code cur i : Nat} (hcur : cur < 4096)
    (hc : code &&& mask = code) (hi : mask.testBit i = false) :
    (insertField mask code cur).testBit i = cur.testBit i := by
  have hb : (code.testBit i && mask.testBit i) = code.testBit i := by
    rw [← Nat.testBit_and, hc]
  rw [hi] at hb
  have hc0 : code.testBit i = false := by simpa using hb.symm
  by_cases h12 : i < 12
  · simp [insertField, testBit_4095, h12, hi, hc0]
  · simp [insertField, testBit_4095, h12, hi, hc0,
      testBit_of_lt_4096 hcur (Nat.le_of_not_lt h12)]

/-! ## Transport lemmas -/

theorem read_fst (spi : Spi β) (a : Nat) (d : Drv β) :
    (drv.read spi a d).1 = (spi d.chip (drv.readFrame a % 65536)).1 % 65536 := rfl

theorem read_snd (spi : Spi β) (a : Nat) (d : Drv β) :
    (drv.read spi a d).2 =
      { d with chip := (spi d.chip (drv.readFrame a % 65536)).2, scs := false, busy := false,
               wire := d.wire ++ [⟨true, drv.readFrame a % 65536⟩] } := rfl

theorem write_eq (spi : Spi β) (a v : Nat) (d : Drv β) :
    drv.write spi a v d =
      { d with chip := (spi d.chip (drv.writeFrame a v % 65536)).2, scs := false, busy := false,
               wire := d.wire ++ [⟨true, drv.writeFrame a v % 65536⟩] } := rfl

theorem logSet_fst (l : Logger) (reg subreg setting : String) (success : Bool) (out : Serial) :
    (Logger.logSet l reg subreg setting success out).1 = success := by
  unfold Logger.logSet; split_ifs <;> rfl

/-- What a setter does for a value the table knows. -/
theorem Field.set_of_pattern (spi : Spi β) (f : Field) (v : f.Val) (p : Nat) (d : Drv β)
    (hp : f.pattern v = some p) :
    ∃ ser, f.set spi v d =
      (decide ((f.get spi (f.written spi p d)).1 = v),
       { (f.get spi (f.written spi p d)).2 with serial := ser }) := by
  have hcur : ∀ a, (drv.read spi a d).1 % 4096 < 4096 := fun a => Nat.mod_lt _ (by decide)
  cases f <;> simp only [Field.pattern, fourValued] at hp <;>
    split_ifs at hp <;> cases hp <;> subst_vars <;>
    simp only [Field.set, Field.get, Field.written, Field.reg, Field.mask, Field.lo, Field.width,
      drv.setHbridge, drv.setISGain, drv.setDTime, drv.setTorque, drv.setTOff, drv.setTBlank,
      drv.setTDecay, drv.setDecMode, drv.setOCPThresh, drv.setOCPDeglitchTime, drv.setTDriveN,
      drv.setTDriveP, drv.setIDriveN, drv.setIDriveP,
      and_not16_F000, drv.finishInt, drv.finishText, drv.finishUInt,
      drv.finishFloat, Logger.logSetInt, Logger.logSetUInt, Logger.logSetFloat, logSet_fst,
      form_set_clear (hcur _) (show 0x100 < 4096 by decide) (show 0x100 &&& 0x200 = 0 by decide),
      form_set_clear (hcur _) (show 0x200 < 4096 by decide) (show 0x200 &&& 0x100 = 0 by decide),
      form_set_clear (hcur _) (show 0x400 < 4096 by decide) (show 0x400 &&& 0x800 = 0 by decide),
      form_set_clear (hcur _) (show 0x800 < 4096 by decide) (show 0x800 &&& 0x400 = 0 by decide),
      form_clear_set (hcur _), form_byte] <;>
    (try simp only [form_clear (hcur _), form_set (hcur _)]) <;>
    simp [*]


/-- Every getter is one read of the field's register followed by the field's decoding. -/
theorem Field.get_fst (spi : Spi β) (f : Field) (d : Drv β) :
    (f.get spi d).1 = f.decode ((drv.read spi f.reg d).1 &&& f.mask) := by
  cases f <;>
    simp [Field.get, Field.decode, fourDecode, twoText, fourText, Field.reg, Field.mask, Field.lo,
      Field.width, drv.getHbridge, drv.getISGain, drv.getDTime, drv.getTorque, drv.getTOff,
      drv.getTBlank, drv.getTDecay, drv.getDecMode, drv.getOCPThresh, drv.getOCPDeglitchTime,
      drv.getTDriveN, drv.getTDriveP, drv.getIDriveN, drv.getIDriveP]

theorem Field.get_snd (spi : Spi β) (f : Field) (d : Drv β) :
    (f.get spi d).2 = (drv.read spi f.reg d).2 := by
  cases f <;> rfl

theorem Field.reg_lt (f : Field) : f.reg < 8 := by cases f <;> decide

theorem Field.mask_lt (f : Field) : f.mask < 4096 := by cases f <;> decide

theorem readFrame_eq {a : Nat} (ha : a < 8) : drv.readFrame a = 32768 + a * 4096 := by
  interval_cases a <;> rfl

theorem writeFrame_eq {a v : Nat} (ha : a < 8) (hv : v < 4096) :
    drv.writeFrame a v = a * 4096 + v := by
  have h : (a <<< 12) % 65536 &&& not16 0x8000 = 2 ^ 12 * a := by interval_cases a <;> rfl
  unfold drv.writeFrame
  simp only [h]
  have hv2 : v < 2 ^ 12 := hv
  rw [← Nat.mul_add_lt_is_or hv2 a]
  omega


/-! ## Rejected values -/

/-- Every setter but `setDTime` leaves at once when the table has no pattern for the value:
nothing is transferred after the first read. -/
theorem Field.set_of_no_pattern (spi : Spi β) (f : Field) (v : f.Val) (d : Drv β)
    (hf : f ≠ .DTIME) (hp : f.pattern v = none) :
    ∃ ser, f.set spi v d = (false, { (drv.read spi f.reg d).2 with serial := ser }) := by
  cases f <;> simp only [Field.pattern, fourValued] at hp <;>
    split_ifs at hp <;> first
    | exact absurd rfl hf
    | (simp [Field.set, Field.reg, drv.setHbridge, drv.setISGain, drv.setTorque, drv.setTOff,
        drv.setTBlank, drv.setTDecay, drv.setDecMode, drv.setOCPThresh,
        drv.setOCPDeglitchTime, drv.setTDriveN, drv.setTDriveP, drv.setIDriveN,
        drv.setIDriveP, drv.reject, *])

/-- For a value without pattern `setDTime` logs, writes the register back as read and verifies. -/
theorem setDTime_of_no_pattern (spi : Spi β) (v : Int) (d : Drv β)
    (hp : Field.pattern .DTIME v = none) :
    ∃ ser ser2, drv.setDTime spi v d =
      (decide ((drv.getDTime spi (drv.write spi CTRL ((drv.read spi CTRL d).1 % 4096)
          { (drv.read spi CTRL d).2 with serial := ser })).1 = v),
       { (drv.getDTime spi (drv.write spi CTRL ((drv.read spi CTRL d).1 % 4096)
          { (drv.read spi CTRL d).2 with serial := ser })).2 with serial := ser2 }) := by
  simp only [Field.pattern, fourValued] at hp
  split_ifs at hp
  have h : drv.setDTime spi v d =
      drv.finishInt spi CTRL "CTRL" "DTIME" v (drv.getDTime spi) ((drv.read spi CTRL d).1 % 4096)
        { (drv.read spi CTRL d).2 with
          serial := Logger.loge (drv.read spi CTRL d).2.logger "DTIME set: invalid input"
            (drv.read spi CTRL d).2.serial } := by
    simp only [drv.setDTime, and_not16_F000]
    simp [*]
  rw [h]
  simp only [drv.finishInt, Logger.logSetInt, logSet_fst]
  exact ⟨_, _, rfl⟩

/-! ## The field table -/

theorem Field.mask_testBit (f : Field) (i : Nat) :
    f.mask.testBit i = decide (f.lo ≤ i ∧ i < f.lo + f.width) := by
  unfold Field.mask
  rw [Nat.testBit_shiftLeft, Nat.testBit_two_pow_sub_one]
  by_cases h : f.lo ≤ i
  · have : (i - f.lo < f.width) ↔ (i < f.lo + f.width) := by omega
    simp [h, this]
  · simp [h]

theorem Field.pattern_lt (f : Field) (v : f.Val) (p : Nat) (hp : f.pattern v = some p) :
    p < 2 ^ f.width := by
  cases f <;> simp only [Field.pattern, fourValued] at hp <;>
    split_ifs at hp <;> cases hp <;> simp only [Field.width] <;> omega

theorem Field.code_lt (f : Field) (v : f.Val) (p : Nat) (hp : f.pattern v = some p) :
    p <<< f.lo < 4096 := by
  have h := f.pattern_lt v p hp
  rw [Nat.shiftLeft_eq]
  cases f <;> simp only [Field.width, Field.lo] at h ⊢ <;> omega

theorem Field.code_and_mask (f : Field) (v : f.Val) (p : Nat) (hp : f.pattern v = some p) :
    (p <<< f.lo) &&& f.mask = p <<< f.lo := by
  have h := f.pattern_lt v p hp
  apply Nat.eq_of_testBit_eq
  intro i
  rw [Nat.testBit_and, f.mask_testBit, Nat.testBit_shiftLeft]
  by_cases h1 : f.lo ≤ i
  · by_cases h2 : i < f.lo + f.width
    · simp [h1, h2]
    · have h3 : p.testBit (i - f.lo) = false := by
        apply Nat.testBit_lt_two_pow
        exact lt_of_lt_of_le h (Nat.pow_le_pow_right (by decide) (by omega))
      simp [h1, h2, h3]
  · simp [h1]

/-- A word whose field bits are the code of `p` has `p` in the field's bit range. -/
theorem Field.extract_of_and_mask (f : Field) (w p : Nat) (hp : p < 2 ^ f.width)
    (h : w &&& f.mask = p <<< f.lo) : f.extract w = p := by
  apply Nat.eq_of_testBit_eq
  intro i
  have hi := congrArg (fun x => Nat.testBit x (f.lo + i)) h
  simp only [Nat.testBit_and, f.mask_testBit, Nat.testBit_shiftLeft] at hi
  unfold Field.extract
  rw [Nat.testBit_mod_two_pow, Nat.testBit_shiftRight]
  by_cases h2 : i < f.width
  · simpa [h2] using hi
  · have h3 : p.testBit i = false := by
      apply Nat.testBit_lt_two_pow
      exact lt_of_lt_of_le hp (Nat.pow_le_pow_right (by decide) (by omega))
    simp [h2, h3]

/-- Decoding the code of a legal value gives the value back, for every field but OCPDEG. -/
theorem Field.decode_code (f : Field) (v : f.Val) (p : Nat) (hf : f ≠ .OCPDEG)
    (hp : f.pattern v = some p) : f.decode (p <<< f.lo) = v := by
  cases f <;> simp only [Field.pattern, fourValued] at hp <;>
    split_ifs at hp <;> cases hp <;> first
    | exact absurd rfl hf
    | (subst_vars; simp [Field.decode, fourDecode, twoText, fourText, Field.lo])

/-! ## The fault-free bus -/

theorem frameIsRead_readFrame {a : Nat} (ha : a < 8) :
    frameIsRead (drv.readFrame a % 65536) = true := by
  interval_cases a <;> rfl

theorem frameAddr_readFrame {a : Nat} (ha : a < 8) :
    frameAddr (drv.readFrame a % 65536) = ⟨a, ha⟩ := by
  interval_cases a <;> rfl

theorem frameIsRead_writeFrame {a v : Nat} (ha : a < 8) (hv : v < 4096) :
    frameIsRead (drv.writeFrame a v % 65536) = false := by
  rw [writeFrame_eq ha hv, frameIsRead, Nat.testBit_to_div_mod]
  simp only [decide_eq_false_iff_not]
  omega

theorem frameAddr_writeFrame {a v : Nat} (ha : a < 8) (hv : v < 4096) :
    frameAddr (drv.writeFrame a v % 65536) = ⟨a, ha⟩ := by
  rw [writeFrame_eq ha hv]
  apply Fin.ext
  simp only [frameAddr]
  omega

theorem framePayload_writeFrame {a v : Nat} (ha : a < 8) (hv : v < 4096) :
    framePayload (drv.writeFrame a v % 65536) = ⟨v, hv⟩ := by
  rw [writeFrame_eq ha hv]
  apply Fin.ext
  simp only [framePayload]
  omega

theorem ideal_read_fst {a : Nat} (ha : a < 8) (d : Drv RegFile) :
    (drv.read idealChip a d).1 = (d.chip ⟨a, ha⟩).val := by
  rw [read_fst]
  simp only [idealChip, frameIsRead_readFrame ha, frameAddr_readFrame ha, if_true]
  have := (d.chip ⟨a, ha⟩).isLt
  omega

theorem ideal_read_chip {a : Nat} (ha : a < 8) (d : Drv RegFile) :
    (drv.read idealChip a d).2.chip = d.chip := by
  rw [read_snd]
  simp only [idealChip, frameIsRead_readFrame ha, if_true]

theorem ideal_write_chip {a v : Nat} (ha : a < 8) (hv : v < 4096) (d : Drv RegFile) :
    (drv.write idealChip a v d).chip = Function.update d.chip ⟨a, ha⟩ ⟨v, hv⟩ := by
  rw [write_eq]
  simp [idealChip, frameIsRead_writeFrame ha hv, frameAddr_writeFrame ha hv,
    framePayload_writeFrame ha hv]

/-- On the fault-free bus a getter decodes the stored register and leaves the registers alone. -/
theorem Field.ideal_get_fst (f : Field) (d : Drv RegFile) :
    (f.get idealChip d).1 = f.decode ((d.chip ⟨f.reg, f.reg_lt⟩).val &&& f.mask) := by
  rw [f.get_fst, ideal_read_fst f.reg_lt]

theorem Field.ideal_get_chip (f : Field) (d : Drv RegFile) :
    (f.get idealChip d).2.chip = d.chip := by
  rw [f.get_snd, ideal_read_chip f.reg_lt]

/-- On the fault-free bus the read-modify-write of a set replaces the field's bits of the
field's register and nothing else. -/
theorem Field.ideal_written_chip (f : Field) (v : f.Val) (p : Nat) (d : Drv RegFile)
    (hp : f.pattern v = some p) :
    (f.written idealChip p d).chip =
      Function.update d.chip ⟨f.reg, f.reg_lt⟩
        ⟨insertField f.mask (p <<< f.lo) (d.chip ⟨f.reg, f.reg_lt⟩).val,
          insertField_lt f.mask_lt (f.code_lt v p hp)⟩ := by
  unfold Field.written
  rw [ideal_write_chip f.reg_lt (insertField_lt f.mask_lt (f.code_lt v p hp)),
    ideal_read_chip f.reg_lt]
  have h : (drv.read idealChip f.reg d).1 % 4096 = (d.chip ⟨f.reg, f.reg_lt⟩).val := by
    rw [ideal_read_fst f.reg_lt, Nat.mod_eq_of_lt (d.chip ⟨f.reg, f.reg_lt⟩).isLt]
  simp only [h]

/-! ## Set, then get -/

theorem Field.exists_pattern_of_legal (f : Field) (v : f.Val) (hv : f.legal v) :
    ∃ p, f.pattern v = some p :=
  Option.isSome_iff_exists.mp hv

/-- On the fault-free bus the word read back after the read-modify-write of a set carries the
code of the value in the field's bits. -/
theorem Field.ideal_written_and_mask (f : Field) (v : f.Val) (p : Nat) (d : Drv RegFile)
    (hp : f.pattern v = some p) :
    ((f.written idealChip p d).chip ⟨f.reg, f.reg_lt⟩).val &&& f.mask = p <<< f.lo := by
  rw [f.ideal_written_chip v p d hp, Function.update_same]
  exact insertField_and_mask f.mask_lt (f.code_and_mask v p hp)

/-- C1. Set-then-get round trip on the fault-free bus: for every field but OCPDEG, every legal
value `v` and every initial state (register file included), the setter returns true and the
getter called next returns `v`. -/
theorem set_then_get_roundtrip (f : Field) (v : f.Val) (d : Drv RegFile)
    (hf : f ≠ .OCPDEG) (hv : f.legal v) :
    (f.set idealChip v d).1 = true ∧ (f.get idealChip (f.set idealChip v d).2).1 = v := by
  obtain ⟨p, hp⟩ := f.exists_pattern_of_legal v hv
  obtain ⟨ser, hset⟩ := f.set_of_pattern idealChip v p d hp
  have hback : (f.get idealChip (f.written idealChip p d)).1 = v := by
    rw [f.ideal_get_fst, f.ideal_written_and_mask v p d hp]
    exact f.decode_code v p hf hp
  constructor
  · rw [hset]
    simp [hback]
  · rw [hset, f.ideal_get_fst]
    simp only [f.ideal_get_chip]
    rw [f.ideal_written_and_mask v p d hp]
    exact f.decode_code v p hf hp

/-- C1, witness: gain 20 on the reset register file. -/
theorem set_then_get_roundtrip_witness :
    Field.ISGAIN ≠ Field.OCPDEG ∧ Field.legal .ISGAIN (20 : Int) ∧
    (drv.setISGain idealChip 20 (drv.init initRegFile)).1 = true ∧
    (drv.getISGain idealChip (drv.setISGain idealChip 20 (drv.init initRegFile)).2).1 = 20 :=
  ⟨by decide, by decide,
    set_then_get_roundtrip .ISGAIN (20 : Int) (drv.init initRegFile) (by decide) (by decide)⟩

/-- C2. The deglitch round trip fails in the code: on the fault-free bus, for every initial
state, `setOCPDeglitchTime(2.1)` returns false and `getOCPDeglitchTime()` called next returns
4.2; `setOCPDeglitchTime(4.2)` returns false and the getter returns 0.  (The getter compares
the masked bits 3:2 with `0x002` and `0x004` where the patterns 01 and 10 are `0x004` and
`0x008`.) -/
theorem deglitch_roundtrip_fails (d : Drv RegFile) :
    (drv.setOCPDeglitchTime idealChip 210 d).1 = false ∧
    (drv.getOCPDeglitchTime idealChip (drv.setOCPDeglitchTime idealChip 210 d).2).1 = 420 ∧
    (drv.setOCPDeglitchTime idealChip 420 d).1 = false ∧
    (drv.getOCPDeglitchTime idealChip (drv.setOCPDeglitchTime idealChip 420 d).2).1 = 0 := by
  have key : ∀ (v : Int) (p : Nat) (g : Int), Field.pattern .OCPDEG v = some p →
      Field.decode .OCPDEG (p <<< 2) = g → g ≠ v →
      (Field.set idealChip .OCPDEG v d).1 = false ∧
      (Field.get idealChip .OCPDEG (Field.set idealChip .OCPDEG v d).2).1 = g := by
    intro v p g hp hg hne
    obtain ⟨ser, hset⟩ := Field.set_of_pattern idealChip .OCPDEG v p d hp
    have hback : (Field.get idealChip .OCPDEG (Field.written idealChip .OCPDEG p d)).1 = g := by
      rw [Field.ideal_get_fst, Field.ideal_written_and_mask .OCPDEG v p d hp]
      exact hg
    constructor
    · rw [hset]
      simp [hback, hne]
    · rw [hset, Field.ideal_get_fst]
      simp only [Field.ideal_get_chip]
      rw [Field.ideal_written_and_mask .OCPDEG v p d hp]
      exact hg
  have h1 := key 210 1 420 (by decide) (by decide) (by decide)
  have h2 := key 420 2 0 (by decide) (by decide) (by decide)
  exact ⟨h1.1, h1.2, h2.1, h2.2⟩

/-! ## What goes over the wire -/

theorem framesSince_of_wire (d e : Drv β) (l : List Transfer) (h : e.wire = d.wire ++ l) :
    framesSince d e = l.map Transfer.frame := by
  unfold framesSince
  rw [h, List.drop_left]

theorem read_wire (spi : Spi β) (a : Nat) (d : Drv β) :
    (drv.read spi a d).2.wire = d.wire ++ [⟨true, drv.readFrame a % 65536⟩] := rfl

theorem write_wire (spi : Spi β) (a v : Nat) (d : Drv β) :
    (drv.write spi a v d).wire = d.wire ++ [⟨true, drv.writeFrame a v % 65536⟩] := rfl

/-- The three transfers of a set whose value has pattern `p`: read, write of the new word,
read. -/
theorem Field.set_wire_of_pattern (spi : Spi β) (f : Field) (v : f.Val) (p : Nat) (d : Drv β)
    (hp : f.pattern v = some p) :
    (f.set spi v d).2.wire = d.wire ++
      [⟨true, drv.readFrame f.reg % 65536⟩,
       ⟨true, drv.writeFrame f.reg
          (insertField f.mask (p <<< f.lo) ((drv.read spi f.reg d).1 % 4096)) % 65536⟩,
       ⟨true, drv.readFrame f.reg % 65536⟩] := by
  obtain ⟨ser, hset⟩ := f.set_of_pattern spi v p d hp
  rw [hset]
  simp [f.get_snd, read_wire, Field.written, write_wire]

theorem readFrame_mod {a : Nat} (ha : a < 8) : drv.readFrame a % 65536 = 0x8000 ||| (a <<< 12) := by
  interval_cases a <;> rfl

theorem writeFrame_mod {a v : Nat} (ha : a < 8) (hv : v < 4096) :
    drv.writeFrame a v % 65536 = a * 4096 + v := by
  rw [writeFrame_eq ha hv]
  omega

/-- The frames of a set whose value has pattern `p`, on any bus: the only write frame is
addressed to the field's register and carries `p` in the field's bit range. -/
theorem Field.write_frame_of_pattern (spi : Spi β) (f : Field) (v : f.Val) (p : Nat)
    (d : Drv β) (hp : f.pattern v = some p) :
    ∃ w, (framesSince d (f.set spi v d).2).filter (fun fr => !frameIsRead fr) = [w] ∧
      (frameAddr w).val = f.reg ∧ f.extract (framePayload w).val = p := by
  have hout : insertField f.mask (p <<< f.lo) ((drv.read spi f.reg d).1 % 4096) < 4096 :=
    insertField_lt f.mask_lt (f.code_lt v p hp)
  refine ⟨drv.writeFrame f.reg
    (insertField f.mask (p <<< f.lo) ((drv.read spi f.reg d).1 % 4096)) % 65536, ?_, ?_, ?_⟩
  · rw [framesSince_of_wire d _ _ (f.set_wire_of_pattern spi v p d hp)]
    simp [List.filter, frameIsRead_readFrame f.reg_lt, frameIsRead_writeFrame f.reg_lt hout]
  · rw [frameAddr_writeFrame f.reg_lt hout]
  · rw [framePayload_writeFrame f.reg_lt hout]
    exact f.extract_of_and_mask _ p (f.pattern_lt v p hp)
      (insertField_and_mask f.mask_lt (f.code_and_mask v p hp))

/-- C3. Every setter encodes as the field table says: for every field, every legal value
(pattern `p` in the table) and every prior register value, on any bus, the setter issues
exactly one write frame; it is addressed to the register the table names and its payload
holds `p` in the field's bit range. -/
theorem setter_encodes_as_table (spi : Spi β) (f : Field) (v : f.Val) (p : Nat) (d : Drv β)
    (hp : f.pattern v = some p) :
    ∃ w, (framesSince d (f.set spi v d).2).filter (fun fr => !frameIsRead fr) = [w] ∧
      (frameAddr w).val = f.reg ∧ f.extract (framePayload w).val = p :=
  f.write_frame_of_pattern spi v p d hp

/-- C3, witness: gain 20 on the reset register file puts `10` in bits 9:8 of a frame for
CTRL. -/
theorem setter_encodes_as_table_witness :
    Field.pattern .ISGAIN (20 : Int) = some 2 ∧
    ∃ w, (framesSince (drv.init initRegFile)
        (Field.set idealChip .ISGAIN (20 : Int) (drv.init initRegFile)).2).filter
          (fun fr => !frameIsRead fr) = [w] ∧
      (frameAddr w).val = Field.reg .ISGAIN ∧ Field.extract .ISGAIN (framePayload w).val = 2 :=
  ⟨by decide,
    setter_encodes_as_table idealChip .ISGAIN (20 : Int) 2 (drv.init initRegFile) (by decide)⟩

/-! ## Isolation -/

/-- C4. Field isolation on the fault-free bus: for every setter, every legal value and every
prior state, after the call every register other than the field's holds its prior value, the
field's register agrees with its prior value in every bit outside the field's bit range, and
every write frame put on the bus is addressed to the field's register. -/
theorem field_isolation (f : Field) (v : f.Val) (d : Drv RegFile) (hv : f.legal v) :
    (∀ a : Fin 8, a ≠ ⟨f.reg, f.reg_lt⟩ → (f.set idealChip v d).2.chip a = d.chip a) ∧
    (∀ i, ¬ f.covers i →
      ((f.set idealChip v d).2.chip ⟨f.reg, f.reg_lt⟩).val.testBit i =
        (d.chip ⟨f.reg, f.reg_lt⟩).val.testBit i) ∧
    (∀ w ∈ framesSince d (f.set idealChip v d).2,
      frameIsRead w = false → (frameAddr w).val = f.reg) := by
  obtain ⟨p, hp⟩ := f.exists_pattern_of_legal v hv
  obtain ⟨ser, hset⟩ := f.set_of_pattern idealChip v p d hp
  have hchip : (f.set idealChip v d).2.chip = (f.written idealChip p d).chip := by
    rw [hset]
    exact f.ideal_get_chip _
  refine ⟨?_, ?_, ?_⟩
  · intro a ha
    rw [hchip, f.ideal_written_chip v p d hp, Function.update_noteq ha]
  · intro i hi
    rw [hchip, f.ideal_written_chip v p d hp, Function.update_same]
    apply insertField_testBit_outside (d.chip ⟨f.reg, f.reg_lt⟩).isLt (f.code_and_mask v p hp)
    rw [f.mask_testBit]
    exact decide_eq_false hi
  · obtain ⟨w0, hw0, haddr, _⟩ := f.write_frame_of_pattern idealChip v p d hp
    intro w hw hwr
    have hmem : w ∈ (framesSince d (f.set idealChip v d).2).filter (fun fr => !frameIsRead fr) :=
      List.mem_filter.mpr ⟨hw, by simp [hwr]⟩
    rw [hw0, List.mem_singleton] at hmem
    rw [hmem]
    exact haddr

/-- C4, witness: `setDecMode("auto")` on the reset register file leaves bit 4 (in TDECAY) and
bit 11 of DECAY as they were. -/
theorem field_isolation_witness :
    Field.legal .DECMOD "auto" ∧
    ((drv.setDecMode idealChip "auto" (drv.init initRegFile)).2.chip ⟨4, by decide⟩).val.testBit 4
      = (initRegFile ⟨4, by decide⟩).val.testBit 4 ∧
    ((drv.setDecMode idealChip "auto" (drv.init initRegFile)).2.chip ⟨4, by decide⟩).val.testBit 11
      = (initRegFile ⟨4, by decide⟩).val.testBit 11 :=
  ⟨by decide,
    (field_isolation .DECMOD "auto" (drv.init initRegFile) (by decide)).2.1 4
      (by simp only [Field.covers, Field.lo, Field.width]; omega),
    (field_isolation .DECMOD "auto" (drv.init initRegFile) (by decide)).2.1 11
      (by simp only [Field.covers, Field.lo, Field.width]; omega)⟩

/-! ## Rejection leaves the registers alone -/

/-- The masked register value is the content of the field's bit range, shifted in place. -/
theorem Field.and_mask_eq (f : Field) (x : Nat) : x &&& f.mask = f.extract x <<< f.lo := by
  apply Nat.eq_of_testBit_eq
  intro i
  unfold Field.extract
  rw [Nat.testBit_and, f.mask_testBit, Nat.testBit_shiftLeft, Nat.testBit_mod_two_pow,
    Nat.testBit_shiftRight]
  by_cases h1 : f.lo ≤ i
  · have e : f.lo + (i - f.lo) = i := by omega
    have : (i - f.lo < f.width) ↔ (i < f.lo + f.width) := by omega
    by_cases h2 : i < f.lo + f.width
    · simp [h1, h2, e, this]
    · simp [h1, h2, this]
  · simp [h1]

theorem Field.extract_lt (f : Field) (x : Nat) : f.extract x < 2 ^ f.width :=
  Nat.mod_lt _ (Nat.two_pow_pos _)

/-- The value `getDTime` decodes is always one of the four legal ones. -/
theorem decode_DTIME_legal (x : Nat) :
    Field.legal .DTIME (Field.decode .DTIME (x &&& Field.mask .DTIME)) := by
  rw [Field.and_mask_eq]
  have h := Field.extract_lt .DTIME x
  generalize Field.extract .DTIME x = e at h
  simp only [Field.width] at h
  have h4 : e < 4 := h
  interval_cases e <;> decide

/-- On the fault-free bus a setter given a value outside the legal domain returns false and
leaves the register file as it was. -/
theorem Field.ideal_set_of_illegal (f : Field) (v : f.Val) (d : Drv RegFile)
    (hv : ¬ f.legal v) :
    (f.set idealChip v d).1 = false ∧ (f.set idealChip v d).2.chip = d.chip := by
  have hp : f.pattern v = none := by
    unfold Field.legal at hv
    cases h : f.pattern v with
    | none => rfl
    | some p => rw [h] at hv; exact absurd rfl hv
  by_cases hf : f = .DTIME
  · subst hf
    obtain ⟨ser, ser2, hset⟩ := setDTime_of_no_pattern idealChip v d hp
    have hcur : (drv.read idealChip CTRL d).1 % 4096 < 4096 := Nat.mod_lt _ (by decide)
    have hval : (drv.read idealChip CTRL d).1 % 4096 = (d.chip ⟨0, by decide⟩).val := by
      rw [ideal_read_fst (by decide : CTRL < 8)]
      exact Nat.mod_eq_of_lt (d.chip ⟨0, by decide⟩).isLt
    have hw : (drv.write idealChip CTRL ((drv.read idealChip CTRL d).1 % 4096)
        { (drv.read idealChip CTRL d).2 with serial := ser }).chip = d.chip := by
      rw [ideal_write_chip (by decide : CTRL < 8) hcur]
      show Function.update (drv.read idealChip CTRL d).2.chip _ _ = d.chip
      rw [ideal_read_chip (by decide : CTRL < 8)]
      have : (⟨(drv.read idealChip CTRL d).1 % 4096, hcur⟩ : Fin 4096) = d.chip ⟨0, by decide⟩ :=
        Fin.ext hval
      rw [this]
      exact Function.update_eq_self _ _
    show (drv.setDTime idealChip v d).1 = false ∧ (drv.setDTime idealChip v d).2.chip = d.chip
    rw [hset]
    constructor
    · have hg := Field.get_fst idealChip .DTIME (drv.write idealChip CTRL
        ((drv.read idealChip CTRL d).1 % 4096) { (drv.read idealChip CTRL d).2 with serial := ser })
      have hne : (drv.getDTime idealChip (drv.write idealChip CTRL
          ((drv.read idealChip CTRL d).1 % 4096)
          { (drv.read idealChip CTRL d).2 with serial := ser })).1 ≠ v := by
        intro h
        apply hv
        rw [← h]
        have hg2 : (drv.getDTime idealChip (drv.write idealChip CTRL
          ((drv.read idealChip CTRL d).1 % 4096)
          { (drv.read idealChip CTRL d).2 with serial := ser })).1 = _ := hg
        rw [hg2]
        exact decode_DTIME_legal _
      simp [hne]
    · have hc := Field.ideal_get_chip .DTIME (drv.write idealChip CTRL
        ((drv.read idealChip CTRL d).1 % 4096) { (drv.read idealChip CTRL d).2 with serial := ser })
      show (drv.getDTime idealChip _).2.chip = d.chip
      exact hc.trans hw
  · obtain ⟨ser, hset⟩ := f.set_of_no_pattern idealChip v d hf hp
    rw [hset]
    exact ⟨rfl, ideal_read_chip f.reg_lt d⟩

/-- C5. Illegal input is rejected without changing state: on the fault-free bus, for every
one of the fourteen setters, every value outside the field's legal domain and every prior
state, the setter returns false and every register holds the value it held before. -/
theorem illegal_rejected_unchanged (f : Field) (v : f.Val) (d : Drv RegFile)
    (hv : ¬ f.legal v) :
    (f.set idealChip v d).1 = false ∧ (f.set idealChip v d).2.chip = d.chip :=
  f.ideal_set_of_illegal v d hv

/-- C5, witness: after `setISGain(20)` on the reset register file, `setISGain(15)` returns
false and `getISGain()` still returns 20. -/
theorem illegal_rejected_unchanged_witness :
    ¬ Field.legal .ISGAIN (15 : Int) ∧
    (drv.setISGain idealChip 15 (drv.setISGain idealChip 20 (drv.init initRegFile)).2).1 = false ∧
    (drv.setISGain idealChip 15 (drv.setISGain idealChip 20 (drv.init initRegFile)).2).2.chip =
      (drv.setISGain idealChip 20 (drv.init initRegFile)).2.chip ∧
    (drv.getISGain idealChip
      (drv.setISGain idealChip 15 (drv.setISGain idealChip 20 (drv.init initRegFile)).2).2).1 = 20 :=
  ⟨by decide,
    (illegal_rejected_unchanged .ISGAIN (15 : Int)
      (drv.setISGain idealChip 20 (drv.init initRegFile)).2 (by decide)).1,
    (illegal_rejected_unchanged .ISGAIN (15 : Int)
      (drv.setISGain idealChip 20 (drv.init initRegFile)).2 (by decide)).2,
    by decide⟩

/-! ## Rejection and the wire -/

/-- Thirteen setters put no write frame on the bus for a value outside the legal domain: the
only frame is the read of the field's register. -/
theorem Field.frames_of_no_pattern (spi : Spi β) (f : Field) (v : f.Val) (d : Drv β)
    (hf : f ≠ .DTIME) (hv : ¬ f.legal v) :
    framesSince d (f.set spi v d).2 = [0x8000 ||| (f.reg <<< 12)] ∧
    frameIsRead (0x8000 ||| (f.reg <<< 12)) = true := by
  have hp : f.pattern v = none := by
    unfold Field.legal at hv
    cases h : f.pattern v with
    | none => rfl
    | some p => rw [h] at hv; exact absurd rfl hv
  obtain ⟨ser, hset⟩ := f.set_of_no_pattern spi v d hf hp
  constructor
  · rw [framesSince_of_wire d _ [⟨true, drv.readFrame f.reg % 65536⟩] (by rw [hset]; rfl)]
    simp [readFrame_mod f.reg_lt]
  · rw [← readFrame_mod f.reg_lt]
    exact frameIsRead_readFrame f.reg_lt

/-- C6. `setDTime` with an illegal value does write: for every value outside the legal domain,
on any bus, the frames it puts on the bus are the read of CTRL, a write frame for CTRL
carrying the 12 bits just read, and the read-back. -/
theorem setDTime_illegal_writes (spi : Spi β) (v : Int) (d : Drv β)
    (hv : ¬ Field.legal .DTIME v) :
    framesSince d (drv.setDTime spi v d).2 =
      [0x8000, (drv.read spi CTRL d).1 % 4096, 0x8000] ∧
    frameIsRead ((drv.read spi CTRL d).1 % 4096) = false := by
  have hp : Field.pattern .DTIME v = none := by
    unfold Field.legal at hv
    cases h : Field.pattern .DTIME v with
    | none => rfl
    | some p => rw [h] at hv; exact absurd rfl hv
  obtain ⟨ser, ser2, hset⟩ := setDTime_of_no_pattern spi v d hp
  have hcur : (drv.read spi CTRL d).1 % 4096 < 4096 := Nat.mod_lt _ (by decide)
  have hw := writeFrame_mod (by decide : CTRL < 8) hcur
  constructor
  · rw [framesSince_of_wire d _
      [⟨true, drv.readFrame CTRL % 65536⟩,
       ⟨true, drv.writeFrame CTRL ((drv.read spi CTRL d).1 % 4096) % 65536⟩,
       ⟨true, drv.readFrame CTRL % 65536⟩]
      (by rw [hset]
          show (drv.read spi CTRL _).2.wire = _
          simp [read_wire, write_wire])]
    simp only [List.map, hw]
    simp [drv.readFrame]
  · have := frameIsRead_writeFrame (by decide : CTRL < 8) hcur
    rw [hw] at this
    simpa using this

/-- C6, witness: `setDTime(15)` on the reset register file writes `0x301` back to CTRL. -/
theorem setDTime_illegal_writes_witness :
    ¬ Field.legal .DTIME (15 : Int) ∧
    framesSince (drv.init initRegFile) (drv.setDTime idealChip 15 (drv.init initRegFile)).2 =
      [0x8000, 0x301, 0x8000] ∧
    frameIsRead 0x301 = false :=
  ⟨by decide, setDTime_illegal_writes idealChip 15 (drv.init initRegFile) (by decide)⟩

/-! ## Frame layout -/

/-- C7. Read frame layout: for every register address `a` in 0..7, on any bus, `read(a)`
transfers exactly one frame, `0x8000 | (a << 12)`; its bit 15 is 1, its bits 14:12 are `a`
and its bits 11:0 are 0. -/
theorem read_frame_layout (spi : Spi β) (a : Nat) (d : Drv β) (ha : a ≤ 7) :
    framesSince d (drv.read spi a d).2 = [0x8000 ||| (a <<< 12)] ∧
    (0x8000 ||| (a <<< 12)).testBit 15 = true ∧
    (0x8000 ||| (a <<< 12)) / 4096 % 8 = a ∧
    (0x8000 ||| (a <<< 12)) % 4096 = 0 := by
  have h8 : a < 8 := by omega
  refine ⟨?_, ?_, ?_, ?_⟩
  · rw [framesSince_of_wire d _ _ (read_wire spi a d)]
    simp [readFrame_mod h8]
  · interval_cases a <;> rfl
  · interval_cases a <;> rfl
  · interval_cases a <;> rfl

/-- C7, witness: the read frame for DRIVE (address 6) is `0xE000`. -/
theorem read_frame_layout_witness :
    (6 : Nat) ≤ 7 ∧
    framesSince (drv.init initRegFile) (drv.read idealChip DRIVE (drv.init initRegFile)).2
      = [0xE000] ∧
    (0xE000 : Nat).testBit 15 = true ∧ 0xE000 / 4096 % 8 = 6 ∧ 0xE000 % 4096 = 0 :=
  ⟨by decide, read_frame_layout idealChip 6 (drv.init initRegFile) (by decide)⟩

/-- C8, counterexample: `write(0, 0x8000)` transfers the frame `0x8000`, whose bit 15 is set,
and not `(0 << 12) | (0x8000 & 0x0FFF) = 0`. -/
theorem write_frame_unmasked_counterexample :
    framesSince (drv.init initRegFile) (drv.write idealChip 0 0x8000 (drv.init initRegFile))
      = [0x8000] ∧
    (0x8000 : Nat).testBit 15 = true ∧
    (0x8000 : Nat) ≠ (0 <<< 12) ||| (0x8000 &&& 0x0FFF) := by
  decide

/-- C8, amended. Write frame layout: for every register address `a` in 0..7 and every 16-bit
value `v`, on any bus, `write(a, v)` transfers exactly one frame, `(a << 12) | v`, with `v`
not masked; when `v` is a 12-bit value the frame is `(a << 12) | (v & 0x0FFF)`, its bit 15 is
0, its bits 14:12 are `a` and its bits 11:0 are `v`. -/
theorem write_frame_layout (spi : Spi β) (a v : Nat) (d : Drv β) (ha : a ≤ 7)
    (hv : v < 65536) :
    framesSince d (drv.write spi a v d) = [(a <<< 12) ||| v] ∧
    (v < 4096 →
      (a <<< 12) ||| v = (a <<< 12) ||| (v &&& 0x0FFF) ∧
      ((a <<< 12) ||| v).testBit 15 = false ∧
      ((a <<< 12) ||| v) / 4096 % 8 = a ∧
      ((a <<< 12) ||| v) % 4096 = v) := by
  have h8 : a < 8 := by omega
  have hshift : (a <<< 12) % 65536 &&& not16 0x8000 = a <<< 12 := by
    interval_cases a <;> rfl
  have hlt : (a <<< 12) ||| v < 65536 := by
    have h1 : a <<< 12 < 2 ^ 16 := by interval_cases a <;> decide
    have h2 : v < 2 ^ 16 := hv
    exact Nat.or_lt_two_pow h1 h2
  constructor
  · rw [framesSince_of_wire d _ _ (write_wire spi a v d)]
    simp only [List.map, drv.writeFrame, hshift]
    rw [Nat.mod_eq_of_lt hlt]
  · intro h12
    have hw := writeFrame_eq h8 h12
    simp only [drv.writeFrame, hshift] at hw
    have h12p : v < 2 ^ 12 := h12
    have hmask : v &&& 0x0FFF = v := Nat.and_pow_two_sub_one_of_lt_two_pow h12p
    rw [hmask, hw, Nat.testBit_to_div_mod]
    refine ⟨rfl, ?_, ?_, ?_⟩
    · simp only [decide_eq_false_iff_not]
      omega
    · omega
    · omega

/-- C8, witness: `write(0x6, 0x0FF0)`, the example of the source, transfers `0x6FF0`. -/
theorem write_frame_layout_witness :
    (6 : Nat) ≤ 7 ∧ (0x0FF0 : Nat) < 65536 ∧
    framesSince (drv.init initRegFile) (drv.write idealChip 6 0x0FF0 (drv.init initRegFile))
      = [0x6FF0] ∧
    ((0x0FF0 : Nat) < 4096 →
      (0x6FF0 : Nat) = (6 <<< 12) ||| (0x0FF0 &&& 0x0FFF) ∧
      (0x6FF0 : Nat).testBit 15 = false ∧ 0x6FF0 / 4096 % 8 = 6 ∧ 0x6FF0 % 4096 = 0x0FF0) :=
  ⟨by decide, by decide,
    write_frame_layout idealChip 6 0x0FF0 (drv.init initRegFile) (by decide) (by decide)⟩

/-- C9, counterexample: on a bus that answers `0xF123`, `read(0)` returns `0xF123`, not
`0xF123 & 0x0FFF = 0x123`. -/
theorem read_unmasked_counterexample :
    (drv.read (constChip 0xF123) 0 (drv.init ())).1 = 0xF123 ∧
    (0xF123 : Nat) &&& 0x0FFF = 0x123 ∧
    (drv.read (constChip 0xF123) 0 (drv.init ())).1 ≠ 0xF123 &&& 0x0FFF := by
  decide

/-- C9, amended. For every register address `a` in 0..7 and every 16-bit response `r` that the
bus returns to the read frame, `read(a)` returns `r` itself, all sixteen bits; the result is
`r & 0x0FFF` exactly when bits 15:12 of `r` are zero. -/
theorem read_returns_response (spi : Spi β) (a r : Nat) (d : Drv β) (ha : a ≤ 7)
    (hr : r < 65536) (hresp : (spi d.chip (0x8000 ||| (a <<< 12))).1 = r) :
    (drv.read spi a d).1 = r ∧
    ((drv.read spi a d).1 = r &&& 0x0FFF ↔ r < 4096) := by
  have h8 : a < 8 := by omega
  have h1 : (drv.read spi a d).1 = r := by
    rw [read_fst, readFrame_mod h8, hresp]
    exact Nat.mod_eq_of_lt hr
  refine ⟨h1, ?_⟩
  rw [h1]
  have hm : r &&& 0x0FFF = r % 4096 := Nat.and_pow_two_sub_one_eq_mod r 12
  rw [hm]
  omega

/-- C9, witness: on the fault-free bus with the reset register file, `read(6)` returns the
stored `0xFA5`. -/
theorem read_returns_response_witness :
    (6 : Nat) ≤ 7 ∧ (0xFA5 : Nat) < 65536 ∧
    (idealChip (drv.init initRegFile).chip (0x8000 ||| (6 <<< 12))).1 = 0xFA5 ∧
    (drv.read idealChip 6 (drv.init initRegFile)).1 = 0xFA5 ∧
    ((drv.read idealChip 6 (drv.init initRegFile)).1 = 0xFA5 &&& 0x0FFF ↔ (0xFA5 : Nat) < 4096) :=
  ⟨by decide, by decide, by decide,
    read_returns_response idealChip 6 0xFA5 (drv.init initRegFile) (by decide) (by decide)
      (by decide)⟩

/-! ## Fault polling -/

theorem and_two_pow_ne_zero (x k : Nat) : x &&& 2 ^ k ≠ 0 ↔ x.testBit k = true := by
  constructor
  · intro h
    by_contra hb
    apply h
    apply Nat.eq_of_testBit_eq
    intro j
    rw [Nat.testBit_and, Nat.testBit_two_pow, Nat.zero_testBit]
    by_cases hj : k = j
    · subst hj; simp [hb]
    · simp [hj]
  · intro hb h
    have := congrArg (fun y => Nat.testBit y k) h
    simp [Nat.testBit_two_pow, hb] at this

/-- The test `current & (1 << k)` of `getFault`, for `k` in 0..5. -/
theorem status_bit_test (s k : Nat) (hk : k < 6) :
    ((s % 65536) &&& 0x03F) &&& 2 ^ k ≠ 0 ↔ s.testBit k = true := by
  rw [and_two_pow_ne_zero, Nat.testBit_and]
  have h63 : Nat.testBit 0x03F k = true := by interval_cases k <;> rfl
  have hm : (s % 65536).testBit k = s.testBit k := by
    have h := Nat.testBit_mod_two_pow s 16 k
    have hk16 : k < 16 := by omega
    simpa [hk16] using h
  simp [h63, hm]

theorem raiseIf_faults (current m : Nat) (k i : Fin 6) (d : Drv β) :
    (drv.raiseIf current m k d).faults i =
      (d.faults i || (decide (current &&& m ≠ 0) && decide (i = k))) := by
  unfold drv.raiseIf
  by_cases hc : current &&& m ≠ 0
  · by_cases hi : i = k
    · subst hi; simp [hc]
    · simp [hc, hi, Function.update_noteq hi]
  · simp [hc]

theorem raiseIf_wire (current m : Nat) (k : Fin 6) (d : Drv β) :
    (drv.raiseIf current m k d).wire = d.wire := by
  unfold drv.raiseIf
  split_ifs <;> rfl

theorem getFault_faults (spi : Spi β) (d : Drv β) (i : Fin 6) :
    (drv.getFault spi d).faults i =
      (d.faults i || (spi d.chip (drv.readFrame STATUS % 65536)).1.testBit i.val) := by
  have b0 := status_bit_test (spi d.chip (drv.readFrame STATUS % 65536)).1 0 (by decide)
  have b1 := status_bit_test (spi d.chip (drv.readFrame STATUS % 65536)).1 1 (by decide)
  have b2 := status_bit_test (spi d.chip (drv.readFrame STATUS % 65536)).1 2 (by decide)
  have b3 := status_bit_test (spi d.chip (drv.readFrame STATUS % 65536)).1 3 (by decide)
  have b4 := status_bit_test (spi d.chip (drv.readFrame STATUS % 65536)).1 4 (by decide)
  have b5 := status_bit_test (spi d.chip (drv.readFrame STATUS % 65536)).1 5 (by decide)
  simp only [Nat.reducePow] at b0 b1 b2 b3 b4 b5
  simp only [drv.getFault, raiseIf_faults, read_fst, b0, b1, b2, b3, b4, b5]
  have hf : (drv.read spi STATUS d).2.faults = d.faults := rfl
  rw [hf]
  fin_cases i <;> simp

theorem getFault_wire (spi : Spi β) (d : Drv β) :
    (drv.getFault spi d).wire = d.wire ++ [⟨true, drv.readFrame STATUS % 65536⟩] := by
  simp only [drv.getFault, raiseIf_wire, read_wire]

/-- C10. Fault polling is an exact, sticky decode of STATUS bits 0..5: for every prior Fault
Set and every value `s` the bus returns to the read of STATUS, after `getFault()` each flag
`i` in 0..5 is the prior flag OR bit `i` of `s`; a flag that was true stays true; only
`s mod 64` matters; and the only frame put on the bus is the read frame `0xF000`. -/
theorem getFault_sticky_decode (spi : Spi β) (d : Drv β) :
    (∀ i : Fin 6, (drv.getFault spi d).faults i =
      (d.faults i || (spi d.chip 0xF000).1.testBit i.val)) ∧
    (∀ i : Fin 6, d.faults i = true → (drv.getFault spi d).faults i = true) ∧
    (∀ i : Fin 6, (drv.getFault spi d).faults i =
      (d.faults i || ((spi d.chip 0xF000).1 % 64).testBit i.val)) ∧
    framesSince d (drv.getFault spi d) = [0xF000] ∧ frameIsRead 0xF000 = true := by
  have hf : drv.readFrame STATUS % 65536 = 0xF000 := rfl
  have h1 : ∀ i : Fin 6, (drv.getFault spi d).faults i =
      (d.faults i || (spi d.chip 0xF000).1.testBit i.val) := by
    intro i
    rw [getFault_faults, hf]
  refine ⟨h1, ?_, ?_, ?_, rfl⟩
  · intro i hi
    rw [h1, hi]
    rfl
  · intro i
    rw [h1]
    have h := Nat.testBit_mod_two_pow (spi d.chip 0xF000).1 6 i.val
    have hi : i.val < 6 := i.isLt
    have h64 : (2 : Nat) ^ 6 = 64 := rfl
    rw [h64] at h
    rw [h]
    simp [hi]
  · rw [framesSince_of_wire d _ _ (getFault_wire spi d), hf]
    rfl

/-! ## Clearing a fault -/

theorem clearFault_eq_write (spi : Spi β) (i : Nat) (d : Drv β) :
    drv.clearFault spi i d = drv.write spi STATUS 0 d := by
  have h0 : (0 : Nat) <<< i = 0 := by simp
  unfold drv.clearFault
  rw [h0]

/-- C11. `clearFault` does not reset the driver's flag: for every index `i` and every prior
Fault Set, on any bus the Fault Set after `clearFault(i)` is the prior one; on the fault-free
bus STATUS then holds 0, and a following `getFault()` still leaves the Fault Set as it was
before `clearFault(i)`, so a flag that was true (the one at index `i` included) is still
true. -/
theorem clearFault_keeps_fault_set (spi : Spi β) (i : Nat) (e : Drv β) (d : Drv RegFile) :
    (drv.clearFault spi i e).faults = e.faults ∧
    ((drv.clearFault idealChip i d).chip ⟨7, by decide⟩).val = 0 ∧
    (drv.getFault idealChip (drv.clearFault idealChip i d)).faults = d.faults ∧
    (∀ k : Fin 6, d.faults k = true →
      (drv.getFault idealChip (drv.clearFault idealChip i d)).faults k = true) := by
  have hf : ∀ (γ : Type) (s : Spi γ) (x : Drv γ), (drv.clearFault s i x).faults = x.faults := by
    intro γ s x
    rw [clearFault_eq_write]
    rfl
  have hchip : (drv.clearFault idealChip i d).chip =
      Function.update d.chip ⟨7, by decide⟩ ⟨0, by decide⟩ := by
    rw [clearFault_eq_write]
    exact ideal_write_chip (by decide : STATUS < 8) (by decide : (0 : Nat) < 4096) d
  have hstatus : ((drv.clearFault idealChip i d).chip ⟨7, by decide⟩).val = 0 := by
    rw [hchip, Function.update_same]
  have hresp : (idealChip (drv.clearFault idealChip i d).chip
      (drv.readFrame STATUS % 65536)).1 = 0 := by
    simp only [idealChip, frameIsRead_readFrame (by decide : STATUS < 8),
      frameAddr_readFrame (by decide : STATUS < 8), if_true]
    exact hstatus
  have hpoll : ∀ k : Fin 6,
      (drv.getFault idealChip (drv.clearFault idealChip i d)).faults k = d.faults k := by
    intro k
    rw [getFault_faults, hresp, hf]
    simp
  refine ⟨hf β spi e, hstatus, funext hpoll, ?_⟩
  intro k hk
  rw [hpoll k, hk]

/-! ## The verification step -/

/-- The getter run after the read-modify-write of a set: its value is decoded from the
response to the read-back, and the driver state is the prior one but for the device, the
chip-select pin and the three transfers. -/
theorem Field.get_written (spi : Spi β) (f : Field) (p : Nat) (d : Drv β) :
    f.get spi (f.written spi p d) =
      (f.decode ((f.readBack spi p d.chip).1 &&& f.mask),
       { d with
         chip := (f.readBack spi p d.chip).2, scs := false, busy := false,
         wire := d.wire ++
           [⟨true, drv.readFrame f.reg % 65536⟩,
            ⟨true, drv.writeFrame f.reg
              (insertField f.mask (p <<< f.lo) ((drv.read spi f.reg d).1 % 4096)) % 65536⟩,
            ⟨true, drv.readFrame f.reg % 65536⟩] }) := by
  apply Prod.ext
  · rw [f.get_fst]
    rfl
  · rw [f.get_snd]
    simp [Field.written, read_snd, write_eq, Field.readBack, read_fst]

/-- C12. A setter's result is the verification outcome: on any bus, for every setter and
every legal value `v` (pattern `p`), the setter returns true if and only if the value the
matching getter decodes from the response to the read-back issued after the write equals `v`;
when that value differs from `v` the setter returns false. -/
theorem setter_result_is_verification (spi : Spi β) (f : Field) (v : f.Val) (p : Nat)
    (d : Drv β) (hp : f.pattern v = some p) :
    ((f.set spi v d).1 = true ↔ f.decode ((f.readBack spi p d.chip).1 &&& f.mask) = v) ∧
    (f.decode ((f.readBack spi p d.chip).1 &&& f.mask) ≠ v → (f.set spi v d).1 = false) ∧
    (f.get spi (f.written spi p d)).1 = f.decode ((f.readBack spi p d.chip).1 &&& f.mask) := by
  obtain ⟨ser, hset⟩ := f.set_of_pattern spi v p d hp
  have hg : (f.get spi (f.written spi p d)).1 =
      f.decode ((f.readBack spi p d.chip).1 &&& f.mask) := by
    rw [f.get_written]
  rw [hset, hg]
  refine ⟨?_, ?_, rfl⟩
  · simp
  · intro h
    simp [h]

/-- C12, witness: on a bus that answers `0` to every frame, `setISGain(20)` decodes 5 from the
read-back and returns false. -/
theorem setter_result_is_verification_witness :
    Field.pattern .ISGAIN (20 : Int) = some 2 ∧
    ((Field.set (constChip 0) .ISGAIN (20 : Int) (drv.init ())).1 = true ↔
      Field.decode .ISGAIN ((Field.readBack (constChip 0) .ISGAIN 2 ()).1 &&& Field.mask .ISGAIN)
        = (20 : Int)) ∧
    (Field.decode .ISGAIN ((Field.readBack (constChip 0) .ISGAIN 2 ()).1 &&& Field.mask .ISGAIN)
        ≠ (20 : Int) →
      (Field.set (constChip 0) .ISGAIN (20 : Int) (drv.init ())).1 = false) ∧
    (Field.get (constChip 0) .ISGAIN (Field.written (constChip 0) .ISGAIN 2 (drv.init ()))).1 =
      Field.decode .ISGAIN ((Field.readBack (constChip 0) .ISGAIN 2 ()).1 &&& Field.mask .ISGAIN) :=
  ⟨by decide,
    setter_result_is_verification (constChip 0) .ISGAIN (20 : Int) 2 (drv.init ()) (by decide)⟩

/-! ## Logger levels -/

theorem append_cons_ne_self {α : Type} (out : List α) (a : α) (l : List α) :
    out ++ a :: l ≠ out := by
  intro h
  have := congrArg List.length h
  simp at this

/-- C13. `logg` is silent at level off: for every tag, message and prior output, at level
"off" `logg(message)` writes nothing, while at the levels "global", "error" and "info" it
writes the tag, " - GLOBAL: " and the message. -/
theorem logg_silent_at_off (tag message : String) (out : Serial) :
    Logger.logg ⟨tag, "off"⟩ message out = out ∧
    Logger.logg ⟨tag, "global"⟩ message out = out ++ [tag, " - GLOBAL: ", message ++ "\n"] ∧
    Logger.logg ⟨tag, "error"⟩ message out = out ++ [tag, " - GLOBAL: ", message ++ "\n"] ∧
    Logger.logg ⟨tag, "info"⟩ message out = out ++ [tag, " - GLOBAL: ", message ++ "\n"] := by
  simp [Logger.logg, Serial.print, Serial.println]

/-- When each kind of report is emitted, by level. -/
theorem Report.emitted_iff (tag : String) (L : Level) (k : Report)
    (reg subreg message : String) (out : Serial) :
    Report.emitted ⟨tag, L.name⟩ k reg subreg message out ↔
      (match k with
        | .logi => 3 ≤ L.rank
        | .loge => 2 ≤ L.rank
        | .logg => 1 ≤ L.rank
        | .logSetSuccess => 3 ≤ L.rank
        | .logSetFailure => 2 ≤ L.rank) := by
  cases L <;> cases k <;>
    simp [Report.emitted, Report.run, Level.name, Level.rank, Logger.logi, Logger.loge,
      Logger.logg, Logger.logSet, Serial.print, Serial.println, append_cons_ne_self]

/-- C14. Logger levels are nested: with the order off < global < error < info, every kind of
report emitted at a level is emitted at every higher level, and for each adjacent pair of
levels some kind of report is emitted at the higher one and not at the lower one (`logg` for
off < global, `loge` for global < error, `logi` for error < info). -/
theorem logger_levels_nested (tag reg subreg message : String) (out : Serial) :
    (∀ (k : Report) (L M : Level), L.rank < M.rank →
      Report.emitted ⟨tag, L.name⟩ k reg subreg message out →
      Report.emitted ⟨tag, M.name⟩ k reg subreg message out) ∧
    (Report.emitted ⟨tag, "global"⟩ .logg reg subreg message out ∧
      ¬ Report.emitted ⟨tag, "off"⟩ .logg reg subreg message out) ∧
    (Report.emitted ⟨tag, "error"⟩ .loge reg subreg message out ∧
      ¬ Report.emitted ⟨tag, "global"⟩ .loge reg subreg message out) ∧
    (Report.emitted ⟨tag, "info"⟩ .logi reg subreg message out ∧
      ¬ Report.emitted ⟨tag, "error"⟩ .logi reg subreg message out) := by
  refine ⟨?_, ?_, ?_, ?_⟩
  · intro k L M hlt h
    rw [Report.emitted_iff] at h ⊢
    cases k <;> simp only at h ⊢ <;> omega
  · exact ⟨(Report.emitted_iff tag .global .logg reg subreg message out).mpr (by decide),
      fun h => absurd ((Report.emitted_iff tag .off .logg reg subreg message out).mp h)
        (by decide)⟩
  · exact ⟨(Report.emitted_iff tag .error .loge reg subreg message out).mpr (by decide),
      fun h => absurd ((Report.emitted_iff tag .global .loge reg subreg message out).mp h)
        (by decide)⟩
  · exact ⟨(Report.emitted_iff tag .info .logi reg subreg message out).mpr (by decide),
      fun h => absurd ((Report.emitted_iff tag .error .logi reg subreg message out).mp h)
        (by decide)⟩

/-- C14, witness: an error report (`loge`) emitted at level error is emitted at level info. -/
theorem logger_levels_nested_witness :
    Level.rank .error < Level.rank .info ∧
    Report.emitted ⟨"DRV8704", "error"⟩ .loge "CTRL" "ENBL" "x" [] ∧
    Report.emitted ⟨"DRV8704", "info"⟩ .loge "CTRL" "ENBL" "x" [] :=
  ⟨by decide,
    (Report.emitted_iff "DRV8704" .error .loge "CTRL" "ENBL" "x" []).mpr (by decide),
    (logger_levels_nested "DRV8704" "CTRL" "ENBL" "x" []).1 .loge .error .info (by decide)
      ((Report.emitted_iff "DRV8704" .error .loge "CTRL" "ENBL" "x" []).mpr (by decide))⟩

/-! ## Idempotence -/

theorem insertField_idem (mask code cur : Nat) :
    insertField mask code (insertField mask code cur) = insertField mask code cur := by
  apply Nat.eq_of_testBit_eq
  intro i
  simp only [insertField, Nat.testBit_and, Nat.testBit_or, Nat.testBit_xor]
  cases cur.testBit i <;> cases code.testBit i <;> cases (Nat.testBit 4095 i) <;>
    cases mask.testBit i <;> rfl

/-- On the fault-free bus a set of a legal value leaves the register file with the field's
bits of the field's register replaced by the code of the value. -/
theorem Field.ideal_set_chip_of_pattern (f : Field) (v : f.Val) (p : Nat) (d : Drv RegFile)
    (hp : f.pattern v = some p) :
    (f.set idealChip v d).2.chip =
      Function.update d.chip ⟨f.reg, f.reg_lt⟩
        ⟨insertField f.mask (p <<< f.lo) (d.chip ⟨f.reg, f.reg_lt⟩).val,
          insertField_lt f.mask_lt (f.code_lt v p hp)⟩ := by
  obtain ⟨ser, hset⟩ := f.set_of_pattern idealChip v p d hp
  rw [hset]
  exact (f.ideal_get_chip _).trans (f.ideal_written_chip v p d hp)

/-- C15. Setters are idempotent on hardware state: on the fault-free bus, for every setter,
every argument value (legal or not) and every initial state, the register file after calling
the setter twice in a row with that value is the register file after calling it once. -/
theorem setter_idempotent (f : Field) (v : f.Val) (d : Drv RegFile) :
    (f.set idealChip v (f.set idealChip v d).2).2.chip = (f.set idealChip v d).2.chip := by
  by_cases hv : f.legal v
  · obtain ⟨p, hp⟩ := f.exists_pattern_of_legal v hv
    rw [f.ideal_set_chip_of_pattern v p _ hp, f.ideal_set_chip_of_pattern v p d hp]
    simp only [Function.update_same, Function.update_idem, insertField_idem]
  · exact (f.ideal_set_of_illegal v _ hv).2

/-! ## Defaults -/

/-- C16. The documented defaults decode from the default register values: on the fault-free
bus with the registers holding `initRegs`, whatever the rest of the driver state, each getter
of an integer- or text-valued field returns the default that `drv.h` documents. -/
theorem defaults_decode (d : Drv RegFile) :
    (drv.getHbridge idealChip { d with chip := initRegFile }).1 = "on" ∧
    (drv.getISGain idealChip { d with chip := initRegFile }).1 = 40 ∧
    (drv.getDTime idealChip { d with chip := initRegFile }).1 = 410 ∧
    (drv.getTorque idealChip { d with chip := initRegFile }).1 = 255 ∧
    (drv.getTOff idealChip { d with chip := initRegFile }).1 = 48 ∧
    (drv.getTBlank idealChip { d with chip := initRegFile }).1 = 128 ∧
    (drv.getTDecay idealChip { d with chip := initRegFile }).1 = 16 ∧
    (drv.getDecMode idealChip { d with chip := initRegFile }).1 = "slow" ∧
    (drv.getOCPThresh idealChip { d with chip := initRegFile }).1 = 500 ∧
    (drv.getTDriveN idealChip { d with chip := initRegFile }).1 = 1050 ∧
    (drv.getTDriveP idealChip { d with chip := initRegFile }).1 = 1050 ∧
    (drv.getIDriveN idealChip { d with chip := initRegFile }).1 = 400 ∧
    (drv.getIDriveP idealChip { d with chip := initRegFile }).1 = 200 := by
  refine ⟨?_, ?_, ?_, ?_, ?_, ?_, ?_, ?_, ?_, ?_, ?_, ?_, ?_⟩
  · exact (Field.ideal_get_fst .ENBL _).trans
      (show Field.decode .ENBL ((initRegFile ⟨Field.reg .ENBL, Field.reg_lt .ENBL⟩).val &&&
        Field.mask .ENBL) = ("on" : String) by decide)
  · exact (Field.ideal_get_fst .ISGAIN _).trans
      (show Field.decode .ISGAIN ((initRegFile ⟨Field.reg .ISGAIN, Field.reg_lt .ISGAIN⟩).val &&&
        Field.mask .ISGAIN) = (40 : Int) by decide)
  · exact (Field.ideal_get_fst .DTIME _).trans
      (show Field.decode .DTIME ((initRegFile ⟨Field.reg .DTIME, Field.reg_lt .DTIME⟩).val &&&
        Field.mask .DTIME) = (410 : Int) by decide)
  · exact (Field.ideal_get_fst .TORQUE _).trans
      (show Field.decode .TORQUE ((initRegFile ⟨Field.reg .TORQUE, Field.reg_lt .TORQUE⟩).val &&&
        Field.mask .TORQUE) = (255 : Nat) by decide)
  · exact (Field.ideal_get_fst .TOFF _).trans
      (show Field.decode .TOFF ((initRegFile ⟨Field.reg .TOFF, Field.reg_lt .TOFF⟩).val &&&
        Field.mask .TOFF) = (48 : Nat) by decide)
  · exact (Field.ideal_get_fst .TBLANK _).trans
      (show Field.decode .TBLANK ((initRegFile ⟨Field.reg .TBLANK, Field.reg_lt .TBLANK⟩).val &&&
        Field.mask .TBLANK) = (128 : Nat) by decide)
  · exact (Field.ideal_get_fst .TDECAY _).trans
      (show Field.decode .TDECAY ((initRegFile ⟨Field.reg .TDECAY, Field.reg_lt .TDECAY⟩).val &&&
        Field.mask .TDECAY) = (16 : Nat) by decide)
  · exact (Field.ideal_get_fst .DECMOD _).trans
      (show Field.decode .DECMOD ((initRegFile ⟨Field.reg .DECMOD, Field.reg_lt .DECMOD⟩).val &&&
        Field.mask .DECMOD) = ("slow" : String) by decide)
  · exact (Field.ideal_get_fst .OCPTH _).trans
      (show Field.decode .OCPTH ((initRegFile ⟨Field.reg .OCPTH, Field.reg_lt .OCPTH⟩).val &&&
        Field.mask .OCPTH) = (500 : Int) by decide)
  · exact (Field.ideal_get_fst .TDRIVEN _).trans
      (show Field.decode .TDRIVEN ((initRegFile ⟨Field.reg .TDRIVEN, Field.reg_lt .TDRIVEN⟩).val &&&
        Field.mask .TDRIVEN) = (1050 : Int) by decide)
  · exact (Field.ideal_get_fst .TDRIVEP _).trans
      (show Field.decode .TDRIVEP ((initRegFile ⟨Field.reg .TDRIVEP, Field.reg_lt .TDRIVEP⟩).val &&&
        Field.mask .TDRIVEP) = (1050 : Int) by decide)
  · exact (Field.ideal_get_fst .IDRIVEN _).trans
      (show Field.decode .IDRIVEN ((initRegFile ⟨Field.reg .IDRIVEN, Field.reg_lt .IDRIVEN⟩).val &&&
        Field.mask .IDRIVEN) = (400 : Int) by decide)
  · exact (Field.ideal_get_fst .IDRIVEP _).trans
      (show Field.decode .IDRIVEP ((initRegFile ⟨Field.reg .IDRIVEP, Field.reg_lt .IDRIVEP⟩).val &&&
        Field.mask .IDRIVEP) = (200 : Int) by decide)

/-! ## Unrecognised decay mode -/

/-- C17. An unrecognised decay-mode pattern is reported as "none": on any bus, with `bits` the
bits 10:8 of the value read from DECAY, `getDecMode()` returns slow, fast, mixed, auto for
`bits` = 000, 010, 011, 101 and "none" otherwise; so it returns "none" if and only if `bits`
is 001, 100, 110 or 111; and "none" is not a value `setDecMode` accepts. -/
theorem getDecMode_none_iff (spi : Spi β) (d : Drv β) :
    (drv.getDecMode spi d).1 =
      (if ((drv.read spi DECAY d).1 >>> 8) % 8 = 0 then "slow"
       else if ((drv.read spi DECAY d).1 >>> 8) % 8 = 2 then "fast"
       else if ((drv.read spi DECAY d).1 >>> 8) % 8 = 3 then "mixed"
       else if ((drv.read spi DECAY d).1 >>> 8) % 8 = 5 then "auto" else "none") ∧
    ((drv.getDecMode spi d).1 = "none" ↔
      (((drv.read spi DECAY d).1 >>> 8) % 8 = 1 ∨ ((drv.read spi DECAY d).1 >>> 8) % 8 = 4 ∨
       ((drv.read spi DECAY d).1 >>> 8) % 8 = 6 ∨ ((drv.read spi DECAY d).1 >>> 8) % 8 = 7)) ∧
    ¬ Field.legal .DECMOD "none" ∧
    (drv.setDecMode spi "none" d).1 = false := by
  have hg : (drv.getDecMode spi d).1 =
      Field.decode .DECMOD ((((drv.read spi DECAY d).1 >>> 8) % 8) <<< 8) := by
    have h := Field.get_fst spi .DECMOD d
    rw [Field.and_mask_eq] at h
    exact h
  have hlt : ((drv.read spi DECAY d).1 >>> 8) % 8 < 8 := Nat.mod_lt _ (by decide)
  have hrej : (drv.setDecMode spi "none" d).1 = false := by
    obtain ⟨ser, hset⟩ := Field.set_of_no_pattern spi .DECMOD "none" d (by decide) (by decide)
    have hset2 : drv.setDecMode spi "none" d = _ := hset
    rw [hset2]
  rw [hg]
  generalize ((drv.read spi DECAY d).1 >>> 8) % 8 = bits at hlt
  refine ⟨?_, ?_, by decide, hrej⟩
  · interval_cases bits <;> decide
  · interval_cases bits <;> decide

/-! ## Bus traces -/

/-- C18. Bus trace of a legal set: on any bus, for every setter and every legal value
(pattern `p`), the frames the setter puts on the bus are exactly three, in this order: the
read frame for the field's register, the write frame for that register carrying the 12-bit
word read with the field's bits replaced, and the read frame again; the register is never the
reserved address 5. -/
theorem legal_set_bus_trace (spi : Spi β) (f : Field) (v : f.Val) (p : Nat) (d : Drv β)
    (hp : f.pattern v = some p) :
    framesSince d (f.set spi v d).2 =
      [0x8000 ||| (f.reg <<< 12),
       (f.reg <<< 12) |||
         insertField f.mask (p <<< f.lo) ((drv.read spi f.reg d).1 % 4096),
       0x8000 ||| (f.reg <<< 12)] ∧
    frameIsRead (0x8000 ||| (f.reg <<< 12)) = true ∧
    frameIsRead ((f.reg <<< 12) |||
      insertField f.mask (p <<< f.lo) ((drv.read spi f.reg d).1 % 4096)) = false ∧
    insertField f.mask (p <<< f.lo) ((drv.read spi f.reg d).1 % 4096) < 4096 ∧
    f.reg ≤ 7 ∧ f.reg ≠ 5 := by
  have hout : insertField f.mask (p <<< f.lo) ((drv.read spi f.reg d).1 % 4096) < 4096 :=
    insertField_lt f.mask_lt (f.code_lt v p hp)
  have hw : drv.writeFrame f.reg
      (insertField f.mask (p <<< f.lo) ((drv.read spi f.reg d).1 % 4096)) % 65536 =
      (f.reg <<< 12) |||
        insertField f.mask (p <<< f.lo) ((drv.read spi f.reg d).1 % 4096) := by
    have h2 : (f.reg <<< 12) % 65536 &&& not16 0x8000 = f.reg <<< 12 := by
      cases f <;> rfl
    have h3 := writeFrame_mod f.reg_lt hout
    have h4 := writeFrame_eq f.reg_lt hout
    rw [h3, ← h4]
    simp only [drv.writeFrame, h2]
  refine ⟨?_, ?_, ?_, hout, ?_, ?_⟩
  · rw [framesSince_of_wire d _ _ (f.set_wire_of_pattern spi v p d hp)]
    simp only [List.map, readFrame_mod f.reg_lt, hw]
  · rw [← readFrame_mod f.reg_lt]
    exact frameIsRead_readFrame f.reg_lt
  · rw [← hw]
    exact frameIsRead_writeFrame f.reg_lt hout
  · cases f <;> decide
  · cases f <;> decide

/-- C18, witness: `setISGain(20)` on the reset register file puts `0x8000`, `0x0201`,
`0x8000` on the bus. -/
theorem legal_set_bus_trace_witness :
    Field.pattern .ISGAIN (20 : Int) = some 2 ∧
    framesSince (drv.init initRegFile) (drv.setISGain idealChip 20 (drv.init initRegFile)).2 =
      [0x8000, 0x0201, 0x8000] ∧
    frameIsRead 0x8000 = true ∧ frameIsRead 0x0201 = false ∧ (0x201 : Nat) < 4096 ∧
    (0 : Nat) ≤ 7 ∧ (0 : Nat) ≠ 5 :=
  ⟨by decide,
    legal_set_bus_trace idealChip .ISGAIN (20 : Int) 2 (drv.init initRegFile) (by decide)⟩

/-- C19. Getters are read-only and depend only on their field: on any bus, every getter puts
exactly one frame on the bus, the read frame for the field's register; and on two buses
whose responses agree on the field's bit range, whatever their other bits, the getter
returns the same value. -/
theorem getter_read_only (γ : Type) (spi : Spi β) (spi2 : Spi γ) (f : Field) (d : Drv β)
    (d2 : Drv γ) :
    framesSince d (f.get spi d).2 = [0x8000 ||| (f.reg <<< 12)] ∧
    frameIsRead (0x8000 ||| (f.reg <<< 12)) = true ∧
    (f.extract (drv.read spi f.reg d).1 = f.extract (drv.read spi2 f.reg d2).1 →
      (f.get spi d).1 = (f.get spi2 d2).1) := by
  refine ⟨?_, ?_, ?_⟩
  · rw [framesSince_of_wire d _ _ (by rw [f.get_snd]; exact read_wire spi f.reg d)]
    simp only [List.map, readFrame_mod f.reg_lt]
  · rw [← readFrame_mod f.reg_lt]
    exact frameIsRead_readFrame f.reg_lt
  · intro h
    rw [f.get_fst, f.get_fst, f.and_mask_eq, f.and_mask_eq, h]

/-- C19, witness: the responses `0xF3FF` and `0x0300` agree on bits 9:8, and `getISGain`
returns the same gain for both. -/
theorem getter_read_only_witness :
    Field.extract .ISGAIN (drv.read (constChip 0xF3FF) (Field.reg .ISGAIN) (drv.init ())).1 =
      Field.extract .ISGAIN (drv.read (constChip 0x0300) (Field.reg .ISGAIN) (drv.init ())).1 ∧
    (Field.get (constChip 0xF3FF) .ISGAIN (drv.init ())).1 =
      (Field.get (constChip 0x0300) .ISGAIN (drv.init ())).1 :=
  ⟨by decide,
    (getter_read_only Unit (constChip 0xF3FF) (constChip 0x0300) .ISGAIN (drv.init ())
      (drv.init ())).2.2 (by decide)⟩

/-! ## Logging and control flow -/

/-- The result, the wire and the device state after a set do not depend on the logger. -/
theorem Field.set_logger_irrelevant (spi : Spi β) (f : Field) (v : f.Val) (d : Drv β)
    (l1 l2 : Logger) :
    (f.set spi v { d with logger := l1 }).1 = (f.set spi v { d with logger := l2 }).1 ∧
    (f.set spi v { d with logger := l1 }).2.wire = (f.set spi v { d with logger := l2 }).2.wire ∧
    (f.set spi v { d with logger := l1 }).2.chip = (f.set spi v { d with logger := l2 }).2.chip := by
  cases hp : f.pattern v with
  | some p =>
    obtain ⟨s1, h1⟩ := f.set_of_pattern spi v p { d with logger := l1 } hp
    obtain ⟨s2, h2⟩ := f.set_of_pattern spi v p { d with logger := l2 } hp
    rw [h1, h2, f.get_written, f.get_written]
    exact ⟨rfl, rfl, rfl⟩
  | none =>
    by_cases hf : f = .DTIME
    · subst hf
      obtain ⟨s1, t1, h1⟩ := setDTime_of_no_pattern spi v { d with logger := l1 } hp
      obtain ⟨s2, t2, h2⟩ := setDTime_of_no_pattern spi v { d with logger := l2 } hp
      have e1 : Field.set spi .DTIME v { d with logger := l1 } = _ := h1
      have e2 : Field.set spi .DTIME v { d with logger := l2 } = _ := h2
      rw [e1, e2]
      exact ⟨rfl, rfl, rfl⟩
    · obtain ⟨s1, h1⟩ := f.set_of_no_pattern spi v { d with logger := l1 } hf hp
      obtain ⟨s2, h2⟩ := f.set_of_no_pattern spi v { d with logger := l2 } hf hp
      rw [h1, h2]
      exact ⟨rfl, rfl, rfl⟩

/-- C20. Logging never changes what a setter does: for every setter, every argument, any bus
and any two loggers (any two levels), the two runs return the same boolean, put the same
frames on the bus and leave the device in the same state; and each `logSet` overload returns
exactly its `success` argument for every level, register name, field name and setting. -/
theorem logging_does_not_change_setter (spi : Spi β) (f : Field) (v : f.Val) (d : Drv β)
    (l1 l2 : Logger) :
    (f.set spi v { d with logger := l1 }).1 = (f.set spi v { d with logger := l2 }).1 ∧
    framesSince { d with logger := l1 } (f.set spi v { d with logger := l1 }).2 =
      framesSince { d with logger := l2 } (f.set spi v { d with logger := l2 }).2 ∧
    (f.set spi v { d with logger := l1 }).2.chip = (f.set spi v { d with logger := l2 }).2.chip ∧
    (∀ (l : Logger) (reg subreg setting : String) (success : Bool) (out : Serial),
      (Logger.logSet l reg subreg setting success out).1 = success) ∧
    (∀ (l : Logger) (reg subreg : String) (setting : Int) (success : Bool) (out : Serial),
      (Logger.logSetInt l reg subreg setting success out).1 = success) ∧
    (∀ (l : Logger) (reg subreg : String) (setting : Int) (success : Bool) (out : Serial),
      (Logger.logSetFloat l reg subreg setting success out).1 = success) ∧
    (∀ (l : Logger) (reg subreg : String) (setting : Nat) (success : Bool) (out : Serial),
      (Logger.logSetUInt l reg subreg setting success out).1 = success) := by
  obtain ⟨h1, h2, h3⟩ := f.set_logger_irrelevant spi v d l1 l2
  refine ⟨h1, ?_, h3, ?_, ?_, ?_, ?_⟩
  · unfold framesSince
    rw [h2]
  · intro l reg subreg setting success out
    exact logSet_fst l reg subreg setting success out
  · intro l reg subreg setting success out
    exact logSet_fst l reg subreg _ success out
  · intro l reg subreg setting success out
    exact logSet_fst l reg subreg _ success out
  · intro l reg subreg setting success out
    exact logSet_fst l reg subreg _ success out

/-! ## Chip-select -/

/-- Chip-select is low after a setter, whatever its argument. -/
theorem Field.set_scs (spi : Spi β) (f : Field) (v : f.Val) (d : Drv β) :
    (f.set spi v d).2.scs = false := by
  cases hp : f.pattern v with
  | some p =>
    obtain ⟨s1, h1⟩ := f.set_of_pattern spi v p d hp
    rw [h1, f.get_written]
  | none =>
    by_cases hf : f = .DTIME
    · subst hf
      obtain ⟨s1, t1, h1⟩ := setDTime_of_no_pattern spi v d hp
      have e1 : Field.set spi .DTIME v d = _ := h1
      rw [e1]
      rfl
    · obtain ⟨s1, h1⟩ := f.set_of_no_pattern spi v d hf hp
      rw [h1]
      rfl

theorem raiseIf_scs (current m : Nat) (k : Fin 6) (d : Drv β) :
    (drv.raiseIf current m k d).scs = d.scs := by
  unfold drv.raiseIf
  split_ifs <;> rfl

/-- C21. Each logical read or write is one chip-select-bracketed exchange: on any bus and from
any state, `read` and `write` perform exactly one transfer, chip-select is high while the
frame is transferred and low when the call returns; chip-select is low after every getter,
every setter (whatever its argument), `getFault` and `clearFault`. -/
theorem chip_select_bracket (spi : Spi β) (a w i : Nat) (f : Field) (v : f.Val) (d : Drv β) :
    (drv.read spi a d).2.wire = d.wire ++ [⟨true, drv.readFrame a % 65536⟩] ∧
    (drv.read spi a d).2.scs = false ∧
    (drv.write spi a w d).wire = d.wire ++ [⟨true, drv.writeFrame a w % 65536⟩] ∧
    (drv.write spi a w d).scs = false ∧
    (f.get spi d).2.scs = false ∧
    (f.set spi v d).2.scs = false ∧
    (drv.getFault spi d).scs = false ∧
    (drv.clearFault spi i d).scs = false := by
  refine ⟨rfl, rfl, rfl, rfl, ?_, f.set_scs spi v d, ?_, rfl⟩
  · rw [f.get_snd]
    rfl
  · simp only [drv.getFault, raiseIf_scs]
    rfl

/-! ## Getters of fully populated fields -/

/-- For every field but DECMOD and OCPDEG the decoding of a masked register value is a value
of the field's legal domain. -/
theorem Field.decode_legal (f : Field) (x : Nat) (h1 : f ≠ .DECMOD) (h2 : f ≠ .OCPDEG) :
    f.legal (f.decode (x &&& f.mask)) := by
  rw [f.and_mask_eq]
  have h := f.extract_lt x
  generalize f.extract x = e at h
  cases f <;> simp only [Field.width] at h <;> first
    | exact absurd rfl h1
    | exact absurd rfl h2
    | (have h4 : e < 4 := h
       interval_cases e <;> decide)
    | (have h4 : e < 2 := h
       interval_cases e <;> decide)
    | (have h4 : e < 256 := h
       have h5 : e ≤ 255 := by omega
       simp [Field.legal, Field.pattern, Field.decode, Field.lo, h5])

/-- C22. Getters of fully populated fields never return their fallback: on any bus, for every
value read from the register, each getter other than `getDecMode` and `getOCPDeglitchTime`
returns a value of its field's legal domain, that is a value its setter accepts. -/
theorem getter_returns_legal (spi : Spi β) (f : Field) (d : Drv β) (h1 : f ≠ .DECMOD)
    (h2 : f ≠ .OCPDEG) : f.legal (f.get spi d).1 := by
  rw [f.get_fst]
  exact f.decode_legal _ h1 h2

/-- C22, witness: on a bus that answers `0xFFFF`, `getIDriveP()` returns a legal current (and
not its initial 0). -/
theorem getter_returns_legal_witness :
    Field.IDRIVEP ≠ Field.DECMOD ∧ Field.IDRIVEP ≠ Field.OCPDEG ∧
    Field.legal .IDRIVEP (drv.getIDriveP (constChip 0xFFFF) (drv.init ())).1 :=
  ⟨by decide, by decide,
    getter_returns_legal (constChip 0xFFFF) .IDRIVEP (drv.init ()) (by decide) (by decide)⟩

/-! ## clearFault and its index -/

/-- C23. `clearFault` does not depend on its index: on any bus, for every index `i` (and any
other index `j`), `clearFault(i)` puts exactly one frame on the bus, the write frame `0x7000`
for STATUS with payload 0, and is the same call as `clearFault(j)`; it leaves the driver's
Fault Set unchanged; on the fault-free bus the STATUS register is 0 after it, so all six
STATUS bits are cleared, and no other register changes. -/
theorem clearFault_index_irrelevant (spi : Spi β) (i j : Nat) (d : Drv β) (e : Drv RegFile) :
    framesSince d (drv.clearFault spi i d) = [0x7000] ∧
    frameIsRead 0x7000 = false ∧ (frameAddr 0x7000).val = STATUS ∧
    (framePayload 0x7000).val = 0 ∧
    drv.clearFault spi i d = drv.clearFault spi j d ∧
    (drv.clearFault spi i d).faults = d.faults ∧
    ((drv.clearFault idealChip i e).chip ⟨7, by decide⟩).val = 0 ∧
    (∀ k : Fin 6, ((drv.clearFault idealChip i e).chip ⟨7, by decide⟩).val.testBit k.val = false) ∧
    (∀ a : Fin 8, a ≠ ⟨7, by decide⟩ → (drv.clearFault idealChip i e).chip a = e.chip a) := by
  have h0 : ∀ n : Nat, (0 : Nat) <<< n = 0 := fun n => by simp
  have hc : ∀ (γ : Type) (s : Spi γ) (n : Nat) (x : Drv γ),
      drv.clearFault s n x = drv.write s STATUS 0 x := by
    intro γ s n x
    unfold drv.clearFault
    rw [h0]
  have hchip : (drv.clearFault idealChip i e).chip =
      Function.update e.chip ⟨7, by decide⟩ ⟨0, by decide⟩ := by
    rw [hc]
    exact ideal_write_chip (by decide : STATUS < 8) (by decide : (0 : Nat) < 4096) e
  refine ⟨?_, by decide, by decide, by decide, ?_, ?_, ?_, ?_, ?_⟩
  · rw [hc, framesSince_of_wire d _ _ (write_wire spi STATUS 0 d)]
    rfl
  · rw [hc, hc]
  · rw [hc]
    rfl
  · rw [hchip, Function.update_same]
  · intro k
    rw [hchip, Function.update_same]
    exact Nat.zero_testBit _
  · intro a ha
    rw [hchip, Function.update_noteq ha]

/-! ## Commutation -/

theorem insertField_comm {m1 c1 m2 c2 : Nat} (cur : Nat) (hm1 : m1 < 4096) (hm2 : m2 < 4096)
    (hm : m1 &&& m2 = 0) (h1 : c1 &&& m1 = c1) (h2 : c2 &&& m2 = c2) :
    insertField m2 c2 (insertField m1 c1 cur) = insertField m1 c1 (insertField m2 c2 cur) := by
  apply Nat.eq_of_testBit_eq
  intro i
  have hmb : (m1.testBit i && m2.testBit i) = false := by
    rw [← Nat.testBit_and, hm]; simp
  have h1b : (c1.testBit i && m1.testBit i) = c1.testBit i := by
    rw [← Nat.testBit_and, h1]
  have h2b : (c2.testBit i && m2.testBit i) = c2.testBit i := by
    rw [← Nat.testBit_and, h2]
  simp only [insertField, Nat.testBit_and, Nat.testBit_or, Nat.testBit_xor, testBit_4095]
  by_cases hi : i < 12
  · simp only [hi, decide_True]
    cases hc : cur.testBit i <;> cases ha : c1.testBit i <;> cases hb : c2.testBit i <;>
      cases hy : m1.testBit i <;> cases hz : m2.testBit i <;> simp_all
  · have h12 := Nat.le_of_not_lt hi
    have hy := testBit_of_lt_4096 hm1 h12
    have hz := testBit_of_lt_4096 hm2 h12
    rw [hy] at h1b
    rw [hz] at h2b
    simp only [Bool.and_false] at h1b h2b
    simp [hi, hy, hz, ← h1b, ← h2b]

/-- Two distinct fields of one register have disjoint bit ranges. -/
theorem Field.mask_disjoint (f g : Field) (hne : f ≠ g) (hreg : f.reg = g.reg) :
    f.mask &&& g.mask = 0 := by
  cases f <;> cases g <;> first
    | exact absurd rfl hne
    | exact absurd hreg (by decide)
    | decide

/-- The register file after a legal set on the fault-free bus, with the new word given by
`framePayload`. -/
theorem Field.ideal_set_chip_payload (f : Field) (v : f.Val) (p : Nat) (d : Drv RegFile)
    (hp : f.pattern v = some p) :
    (f.set idealChip v d).2.chip =
      Function.update d.chip ⟨f.reg, f.reg_lt⟩
        (framePayload (insertField f.mask (p <<< f.lo) (d.chip ⟨f.reg, f.reg_lt⟩).val)) := by
  rw [f.ideal_set_chip_of_pattern v p d hp]
  have h : (⟨insertField f.mask (p <<< f.lo) (d.chip ⟨f.reg, f.reg_lt⟩).val,
      insertField_lt f.mask_lt (f.code_lt v p hp)⟩ : Fin 4096) =
      framePayload (insertField f.mask (p <<< f.lo) (d.chip ⟨f.reg, f.reg_lt⟩).val) := by
    apply Fin.ext
    simp only [framePayload]
    exact (Nat.mod_eq_of_lt (insertField_lt f.mask_lt (f.code_lt v p hp))).symm
  rw [h]

theorem framePayload_insertField_val (f : Field) (v : f.Val) (p : Nat) (cur : Nat)
    (hp : f.pattern v = some p) :
    (framePayload (insertField f.mask (p <<< f.lo) cur)).val =
      insertField f.mask (p <<< f.lo) cur :=
  Nat.mod_eq_of_lt (insertField_lt f.mask_lt (f.code_lt v p hp))

/-- C24. Setters of different fields commute on hardware state: on the fault-free bus, for
every two distinct fields, every legal value `a` of the first and `b` of the second and every
initial state, calling the first setter with `a` then the second with `b` leaves the same
register file as calling them in the opposite order. -/
theorem setters_commute (f g : Field) (a : f.Val) (b : g.Val) (d : Drv RegFile)
    (hne : f ≠ g) (ha : f.legal a) (hb : g.legal b) :
    (g.set idealChip b (f.set idealChip a d).2).2.chip =
      (f.set idealChip a (g.set idealChip b d).2).2.chip := by
  obtain ⟨p, hp⟩ := f.exists_pattern_of_legal a ha
  obtain ⟨q, hq⟩ := g.exists_pattern_of_legal b hb
  rw [g.ideal_set_chip_payload b q _ hq, f.ideal_set_chip_payload a p d hp,
    f.ideal_set_chip_payload a p _ hp, g.ideal_set_chip_payload b q d hq]
  by_cases hreg : f.reg = g.reg
  · have hix : (⟨g.reg, g.reg_lt⟩ : Fin 8) = ⟨f.reg, f.reg_lt⟩ := Fin.ext hreg.symm
    rw [hix]
    simp only [Function.update_same, Function.update_idem,
      framePayload_insertField_val f a p _ hp, framePayload_insertField_val g b q _ hq]
    rw [insertField_comm (d.chip ⟨f.reg, f.reg_lt⟩).val f.mask_lt g.mask_lt
      (f.mask_disjoint g hne hreg) (f.code_and_mask a p hp) (g.code_and_mask b q hq)]
  · have hix : (⟨f.reg, f.reg_lt⟩ : Fin 8) ≠ ⟨g.reg, g.reg_lt⟩ := by
      intro h
      exact hreg (congrArg Fin.val h)
    rw [Function.update_noteq hix.symm, Function.update_noteq hix,
      Function.update_comm hix]

/-- C24, witness: gain 20 and dead time 670, both in CTRL, on the reset register file. -/
theorem setters_commute_witness :
    Field.ISGAIN ≠ Field.DTIME ∧ Field.legal .ISGAIN (20 : Int) ∧
    Field.legal .DTIME (670 : Int) ∧
    (drv.setDTime idealChip 670 (drv.setISGain idealChip 20 (drv.init initRegFile)).2).2.chip =
      (drv.setISGain idealChip 20 (drv.setDTime idealChip 670 (drv.init initRegFile)).2).2.chip :=
  ⟨by decide, by decide, by decide,
    setters_commute .ISGAIN .DTIME (20 : Int) (670 : Int) (drv.init initRegFile) (by decide)
      (by decide) (by decide)⟩

/-! ## setLevel -/

/-- C25. `setLevel` normalises the level: for every logger and every requested level `x`,
after `setLevel(x)` the level is `x` when `x` is "info", "error" or "global" and "off" for
every other `x` ("off" itself and unrecognised names included); the tag is unchanged; and
`setLevel` is idempotent. -/
theorem setLevel_normalises (l : Logger) (x : String) :
    (Logger.setLevel l x).lvl =
      (if x = "info" ∨ x = "error" ∨ x = "global" then x else "off") ∧
    (Logger.setLevel l x).tag = l.tag ∧
    Logger.setLevel (Logger.setLevel l x) x = Logger.setLevel l x := by
  unfold Logger.setLevel
  by_cases h1 : x = "info"
  · subst h1
    simp
  · by_cases h2 : x = "error"
    · subst h2
      simp
    · by_cases h3 : x = "global"
      · subst h3
        simp
      · simp [h1, h2, h3]

end DRV8704
